import Mathlib

/-!
Verification of the VDL device-communication library core against its
specification: binary frame codec (CRC16-CCITT, length-prefixed frames),
circular byte buffer, device connect/execute/reconnect state machine over a
mock transport, and the heartbeat failure counter.

Bytes are modelled as `Nat` values (the C++ `byte_t` is `uint8_t`, so all
in-domain values are below 256); 16-bit machine arithmetic is made explicit
with `% 65536`.  Fallible operations return `Except ErrorCode`.
-/

namespace VDL

/-- Error codes, from `include/vdl/core/error.hpp` (`error_code_t`). -/
inductive ErrorCode where
  | ok
  | unknown
  | invalid
  | not_supported
  | not_implemented
  | out_of_memory
  | allocation_failed
  | invalid_pointer
  | null_pointer
  | invalid_argument
  | out_of_range
  | invalid_size
  | io_error
  | file_not_found
  | file_access_denied
  | invalid_format
  | device_error
  | device_not_available
  | device_not_initialized
  | device_already_open
  | device_not_open
  | timeout
  | deadlock
  | concurrency_error
  | lock_conflict
  | busy
  | protocol_error
  | communication_error
  | version_mismatch
  | invalid_frame
  | checksum_error
  | encode_failed
  | decode_failed
  | incomplete_frame
  | frame_too_large
  | config_error
  | initialization_failed
  | not_initialized
  | already_initialized
  | invalid_state
  | operation_failed
  | operation_cancelled
  | invalid_command
  | transport_error
  | connection_failed
  | connection_closed
  | read_error
  | write_error
  | address_invalid
  | not_connected
  | read_failed
  | write_failed
  deriving DecidableEq, Repr

/-- Response status, from `include/vdl/protocol/response.hpp`
(`response_status_t`). -/
inductive ResponseStatus where
  | success
  | error
  | busy
  | timeout
  | invalid
  deriving DecidableEq, Repr

/-- A command: function code plus payload, from
`include/vdl/protocol/command.hpp` (`command_t`); both fields default to
zero/empty as in the source. -/
structure Command where
  function_code : Nat := 0
  data : List Nat := []
  deriving DecidableEq, Repr

/-- A response, from `include/vdl/protocol/response.hpp` (`response_t`);
field defaults follow the source (`m_status = invalid`). -/
structure Response where
  status : ResponseStatus := .invalid
  function_code : Nat := 0
  data : List Nat := []
  raw_frame : List Nat := []
  deriving DecidableEq, Repr

/-! ## Binary codec (`include/vdl/codec/binary_codec.hpp`) -/

namespace BinaryCodec

/-- Start-of-frame marker (`binary_frame::SOF`). -/
def SOF : Nat := 0xAA

/-- `binary_frame::HEADER_SIZE` (SOF + LEN + FUNC). -/
def HEADER_SIZE : Nat := 4

/-- `binary_frame::CRC_SIZE`. -/
def CRC_SIZE : Nat := 2

/-- `binary_frame::MIN_FRAME_SIZE`. -/
def MIN_FRAME_SIZE : Nat := 6

/-- One shift step of the CRC16-CCITT inner loop (`binary_frame::crc16`,
body of the `for j` loop); the result is truncated to 16 bits as the C++
`uint16_t` arithmetic does. -/
def crcShift (crc : Nat) : Nat :=
  if crc &&& 0x8000 ≠ 0 then ((crc <<< 1) ^^^ 0x1021) % 65536
  else (crc <<< 1) % 65536

/-- The 8-iteration inner loop of `binary_frame::crc16`. -/
def crcBits : Nat → Nat → Nat
  | 0, crc => crc
  | j + 1, crc => crcBits j (crcShift crc)

/-- One byte step of `binary_frame::crc16`: xor the byte into the high 8
bits, then run 8 shift steps.  `b % 256` models the `uint8_t` type of the
input bytes. -/
def crcByte (crc b : Nat) : Nat :=
  crcBits 8 (crc ^^^ ((b % 256) <<< 8))

/-- `binary_frame::crc16`: CRC16-CCITT, polynomial 0x1021, initial value
0xFFFF, over the whole byte list. -/
def crc16 (data : List Nat) : Nat :=
  data.foldl crcByte 0xFFFF

/-- `binary_codec_t::encode`: build `SOF | LEN(2,LE) | FUNC | DATA | CRC(2,LE)`,
rejecting frames longer than the configured max.  The two LEN bytes are
`data_len & 0xFF` and `(data_len >> 8) & 0xFF`, exactly as in the source. -/
def encode (maxFrame : Nat) (cmd : Command) : Except ErrorCode (List Nat) :=
  let dataLen := cmd.data.length
  let frameLen := HEADER_SIZE + dataLen + CRC_SIZE
  if frameLen > maxFrame then
    .error .frame_too_large
  else
    let body := [SOF, dataLen % 256, (dataLen >>> 8) % 256, cmd.function_code]
      ++ cmd.data
    let crc := crc16 body
    .ok (body ++ [crc % 256, (crc >>> 8) % 256])

/-- `binary_codec_t::decode`.  Returns the decode result together with the
`consumed` out-parameter.  The SOF scan is the source's while loop
(`List.findIdx` returns the buffer length when no SOF is present, like the
loop).  A zero `data_len` leaves the response payload at its empty default,
as in the source. -/
def decode (maxFrame : Nat) (buf : List Nat) :
    (Except ErrorCode Response) × Nat :=
  if buf.length < MIN_FRAME_SIZE then
    (.error .incomplete_frame, 0)
  else
    let sofPos := buf.findIdx (· = SOF)
    if sofPos > 0 then
      (.error .invalid_frame, sofPos)
    else
      let dataLen := buf.getD 1 0 ||| (buf.getD 2 0 <<< 8)
      let frameLen := HEADER_SIZE + dataLen + CRC_SIZE
      if buf.length < frameLen then
        (.error .incomplete_frame, 0)
      else if frameLen > maxFrame then
        (.error .frame_too_large, 1)
      else
        let expectedCrc := crc16 (buf.take (frameLen - 2))
        let actualCrc := buf.getD (frameLen - 2) 0 ||| (buf.getD (frameLen - 1) 0 <<< 8)
        if expectedCrc ≠ actualCrc then
          (.error .checksum_error, 1)
        else
          (.ok { status := .success
                 function_code := buf.getD 3 0
                 data := (buf.drop 4).take dataLen
                 raw_frame := buf.take frameLen },
           frameLen)

/-- `binary_codec_t::frame_length`: 0 for fewer than 3 bytes or when the
first byte is not SOF; otherwise the full frame length computed from the
two little-endian LEN bytes. -/
def frame_length (buf : List Nat) : Nat :=
  if buf.length < 3 then 0
  else if buf.getD 0 0 ≠ SOF then 0
  else HEADER_SIZE + (buf.getD 1 0 ||| (buf.getD 2 0 <<< 8)) + CRC_SIZE

end BinaryCodec

/-! ## Circular buffer (`include/vdl/core/buffer.hpp`, `CircularBuffer`) -/

/-- One `std::memcpy(buffer_ + pos, src, src.len)` into a fixed-size byte
store: overwrite `src.length` bytes of `buf` starting at `pos`. -/
def memcpyAt (buf : List Nat) (pos : Nat) (src : List Nat) : List Nat :=
  buf.take pos ++ src ++ buf.drop (pos + src.length)

/-- `CircularBuffer` state: backing storage of `capacity_` bytes plus the
write/read cursors and the stored-byte count. -/
structure CircularBuffer where
  buffer : List Nat
  capacity : Nat
  write_pos : Nat
  read_pos : Nat
  data_size : Nat
  deriving DecidableEq, Repr

namespace CircularBuffer

/-- A freshly constructed buffer: zeroed storage, both cursors and the size
at 0 (`CircularBuffer::CircularBuffer`). -/
def init (cap : Nat) : CircularBuffer :=
  { buffer := List.replicate cap 0
    capacity := cap
    write_pos := 0
    read_pos := 0
    data_size := 0 }

/-- `CircularBuffer::write`: accept `min(size, capacity - data_size)` bytes,
copying in one or two parts depending on wraparound, then advance
`write_pos` mod capacity and grow `data_size`.  Returns the accepted
count. -/
def write (s : CircularBuffer) (data : List Nat) : Nat × CircularBuffer :=
  let available := s.capacity - s.data_size
  let toWrite := min data.length available
  if toWrite = 0 then (0, s)
  else
    let src := data.take toWrite
    let buf :=
      if s.write_pos + toWrite ≤ s.capacity then
        memcpyAt s.buffer s.write_pos src
      else
        let firstPart := s.capacity - s.write_pos
        memcpyAt (memcpyAt s.buffer s.write_pos (src.take firstPart)) 0
          (src.drop firstPart)
    (toWrite,
     { s with buffer := buf
              write_pos := (s.write_pos + toWrite) % s.capacity
              data_size := s.data_size + toWrite })

/-- The one-or-two-part copy out of the storage used by both
`CircularBuffer::read` and `CircularBuffer::peek`. -/
def copyOut (s : CircularBuffer) (toRead : Nat) : List Nat :=
  if s.read_pos + toRead ≤ s.capacity then
    (s.buffer.drop s.read_pos).take toRead
  else
    let firstPart := s.capacity - s.read_pos
    (s.buffer.drop s.read_pos).take firstPart ++ s.buffer.take (toRead - firstPart)

/-- `CircularBuffer::read`: destructively return `min(size, data_size)`
bytes in FIFO order. -/
def read (s : CircularBuffer) (n : Nat) : List Nat × CircularBuffer :=
  let toRead := min n s.data_size
  if toRead = 0 then ([], s)
  else
    (s.copyOut toRead,
     { s with read_pos := (s.read_pos + toRead) % s.capacity
              data_size := s.data_size - toRead })

/-- `CircularBuffer::peek`: the same bytes as `read` without consuming
them. -/
def peek (s : CircularBuffer) (n : Nat) : List Nat :=
  let toPeek := min n s.data_size
  if toPeek = 0 then [] else s.copyOut toPeek

/-- `CircularBuffer::skip`: drop up to `count` bytes without copying. -/
def skip (s : CircularBuffer) (count : Nat) : CircularBuffer :=
  let toSkip := min count s.data_size
  { s with read_pos := (s.read_pos + toSkip) % s.capacity
           data_size := s.data_size - toSkip }

/-- `CircularBuffer::clear`. -/
def clear (s : CircularBuffer) : CircularBuffer :=
  { s with write_pos := 0, read_pos := 0, data_size := 0 }

/-- The bytes currently stored, in FIFO order: the `data_size` bytes
starting at `read_pos`, wrapping around the end of the storage. -/
def contents (s : CircularBuffer) : List Nat :=
  ((s.buffer.drop s.read_pos) ++ (s.buffer.take s.read_pos)).take s.data_size

/-- Structural well-formedness of a buffer state: the storage has exactly
`capacity` bytes, the capacity is positive, the read cursor is in range,
the size never exceeds the capacity, and the write cursor sits `data_size`
bytes past the read cursor, mod capacity. -/
def Inv (s : CircularBuffer) : Prop :=
  s.buffer.length = s.capacity ∧ 0 < s.capacity ∧ s.read_pos < s.capacity ∧
    s.data_size ≤ s.capacity ∧ s.write_pos = (s.read_pos + s.data_size) % s.capacity

end CircularBuffer

/-- An operation on a `CircularBuffer`, for stating properties of operation
sequences. -/
inductive BufOp where
  | write (data : List Nat)
  | read (n : Nat)
  | peek (n : Nat)
  | skip (n : Nat)
  | clear
  deriving DecidableEq, Repr

/-- Apply one operation, returning the bytes it yields (empty for
`write`/`skip`/`clear`) and the next state. -/
def CircularBuffer.applyOp (s : CircularBuffer) : BufOp → List Nat × CircularBuffer
  | .write d => ([], (s.write d).2)
  | .read n => s.read n
  | .peek n => (s.peek n, s)
  | .skip n => ([], s.skip n)
  | .clear => ([], s.clear)

/-- Run a sequence of operations, collecting the bytes each yields. -/
def CircularBuffer.run (s : CircularBuffer) :
    List BufOp → List (List Nat) × CircularBuffer
  | [] => ([], s)
  | op :: ops =>
      ((s.applyOp op).1 :: ((s.applyOp op).2.run ops).1,
       ((s.applyOp op).2.run ops).2)

/-- Modelled from the spec: the abstract FIFO queue a capacity-`cap`
circular buffer implements (§4.1); a write accepts at most the remaining
space, reads and peeks return the oldest bytes. -/
def specBufApply (cap : Nat) (q : List Nat) : BufOp → List Nat × List Nat
  | .write d => ([], q ++ d.take (cap - q.length))
  | .read n => (q.take n, q.drop n)
  | .peek n => (q.take n, q)
  | .skip n => ([], q.drop n)
  | .clear => ([], [])

/-- Run the abstract queue over a sequence of operations. -/
def specBufRun (cap : Nat) (q : List Nat) :
    List BufOp → List (List Nat) × List Nat
  | [] => ([], q)
  | op :: ops =>
      ((specBufApply cap q op).1 :: (specBufRun cap (specBufApply cap q op).2 ops).1,
       (specBufRun cap (specBufApply cap q op).2 ops).2)

/-! ## Device layer (`include/vdl/device/device.hpp`,
`include/vdl/device/device_impl.hpp`) -/

/-- Modelled from the spec: the `device_state_t` enumeration with the
`reconnecting` state (§3 DeviceState).  The copy of `device.hpp` in the
snapshot lacks `reconnecting`, but `device_impl.hpp` assigns
`device_state_t::reconnecting` and the unit tests pin all five values, so
the enumeration is taken from the spec. -/
inductive DeviceState where
  | disconnected
  | connecting
  | connected
  | reconnecting
  | error
  deriving DecidableEq, Repr

/-- Modelled from the spec: `device_config_t` (§3 DeviceConfig).  The first
four fields appear in the snapshot's `device.hpp`; the reconnect fields are
read by `device_impl.hpp` but missing from the snapshot's struct, so they
follow the spec.  `backoffMul` abstracts the source's
`static_cast<milliseconds_t>(static_cast<float>(current_delay) *
backoff_multiplier)` — the action of the floating-point multiplier on a
delay — since IEEE arithmetic is outside this embedding. -/
structure DeviceConfig where
  command_timeout : Nat := 1000
  retry_delay : Nat := 100
  max_retries : Nat := 3
  auto_reconnect : Bool := true
  reconnect_delay : Nat := 1000
  max_reconnect_delay : Nat := 30000
  backoffMul : Nat → Nat := fun d => 2 * d
  reconnect_on_timeout : Bool := false

/-- `mock_transport_t` state (`include/vdl/transport/mock_transport.hpp`):
open flag, the forced-failure knobs, the open counter, the preloaded read
buffer and the captured write bytes.  Defaults are the source's member
initialisers. -/
structure MockTransport where
  is_open : Bool := false
  should_fail_open : Bool := false
  should_fail_read : Bool := false
  should_fail_write : Bool := false
  open_count : Nat := 0
  fail_open_times : Nat := 0
  fail_read_times : Nat := 0
  fail_write_times : Nat := 0
  read_buffer : List Nat := []
  write_buffer : List Nat := []

namespace MockTransport

/-- `mock_transport_t::open`: count the call, consume a transient failure
if armed, fail if configured, otherwise become open. -/
def «open» (t : MockTransport) : (Except ErrorCode Unit) × MockTransport :=
  let t := { t with open_count := t.open_count + 1 }
  if t.fail_open_times > 0 then
    (.error .connection_failed, { t with fail_open_times := t.fail_open_times - 1 })
  else if t.should_fail_open then
    (.error .connection_failed, t)
  else
    (.ok (), { t with is_open := true })

/-- `mock_transport_t::close`. -/
def close (t : MockTransport) : MockTransport :=
  { t with is_open := false }

/-- `mock_transport_t::read` into a span of `maxBytes` bytes: errors when
closed or when a failure is armed, reports `timeout` on an empty buffer,
otherwise hands over `min(maxBytes, buffered)` bytes. -/
def read (t : MockTransport) (maxBytes : Nat) :
    (Except ErrorCode (List Nat)) × MockTransport :=
  if ¬ t.is_open then (.error .not_connected, t)
  else if t.fail_read_times > 0 then
    (.error .read_failed, { t with fail_read_times := t.fail_read_times - 1 })
  else if t.should_fail_read then (.error .read_failed, t)
  else if t.read_buffer.isEmpty then (.error .timeout, t)
  else
    let n := min maxBytes t.read_buffer.length
    (.ok (t.read_buffer.take n), { t with read_buffer := t.read_buffer.drop n })

/-- `mock_transport_t::write`: errors when closed or when a failure is
armed, otherwise appends the whole span to the captured bytes and returns
its size. -/
def write (t : MockTransport) (data : List Nat) :
    (Except ErrorCode Nat) × MockTransport :=
  if ¬ t.is_open then (.error .not_connected, t)
  else if t.fail_write_times > 0 then
    (.error .write_failed, { t with fail_write_times := t.fail_write_times - 1 })
  else if t.should_fail_write then (.error .write_failed, t)
  else (.ok data.length, { t with write_buffer := t.write_buffer ++ data })

/-- `transport_base_t::write_all` over the mock: the mock's `write` accepts
the whole span in one call, so the base-class loop performs exactly one
`write` call (none for an empty span). -/
def write_all (t : MockTransport) (data : List Nat) :
    (Except ErrorCode Unit) × MockTransport :=
  if data.length = 0 then (.ok (), t)
  else
    match t.write data with
    | (.error e, t') => (.error e, t')
    | (.ok _, t') => (.ok (), t')

end MockTransport

/-- Reconnect lifecycle events passed to the reconnect callback
(`reconnect_event_t`, used by `device_impl.hpp` and the unit tests). -/
inductive ReconnectEvent where
  | started
  | attempting
  | success
  | failed
  deriving DecidableEq, Repr

/-- Observable actions of a device-layer run: transport open/close calls,
one event per `write_all`/`read` call of the execute path, backoff and
retry sleeps, and reconnect-callback invocations with their attempt
numbers. -/
inductive Ev where
  | openT
  | closeT
  | writeAttempt
  | readCall
  | sleep (ms : Nat)
  | cb (e : ReconnectEvent) (attempt : Nat) (maxAttempts : Nat)
  deriving DecidableEq, Repr

/-- A `device_impl_t` driving a `mock_transport_t` through the binary
codec: the owned transport, the codec's `m_max_frame_size`, the connection
state and the configuration. -/
structure Device where
  transport : MockTransport
  codecMaxFrame : Nat := 65536
  state : DeviceState := .disconnected
  cfg : DeviceConfig := {}

namespace Device

/-- `device_impl_t`'s constructor: a new device starts `disconnected`. -/
def mkDevice (t : MockTransport) (maxFrame : Nat) (cfg : DeviceConfig) : Device :=
  { transport := t, codecMaxFrame := maxFrame, state := .disconnected, cfg := cfg }

/-- `device_impl_t::disconnect`: close the transport and move to
`disconnected`, from any state. -/
def disconnect (d : Device) : Device :=
  { d with transport := d.transport.close, state := .disconnected }

/-- `device_impl_t::is_connected`. -/
def is_connected (d : Device) : Bool :=
  (d.state == .connected) && d.transport.is_open

/-- `device_impl_t::_is_recoverable_error`: transport-class errors are
recoverable, `timeout` per `reconnect_on_timeout`, everything else
(including all protocol-class codes) is not. -/
def isRecoverableError (cfg : DeviceConfig) (e : ErrorCode) : Bool :=
  match e with
  | .read_failed | .write_failed | .connection_closed | .not_connected
  | .io_error => true
  | .timeout => cfg.reconnect_on_timeout
  | _ => false

/-- The attempt loop of `device_impl_t::_try_reconnect`, recursing on the
remaining attempts (`maxA - remaining` attempts have already failed): emit
`attempting`, close an open transport, reopen; on success stop `connected`;
on the last failure stop `error` with the `failed` event; otherwise sleep
the current delay (skipped at 0), apply the backoff update
`min(backoff(delay), max_reconnect_delay)` and continue. -/
def reconnectGo (cfg : DeviceConfig) (maxA : Nat) :
    Nat → Nat → MockTransport → DeviceState × MockTransport × List Ev
  | 0, _, t => (.error, t, [.cb .failed maxA maxA])
  | r + 1, delay, t =>
      let attemptNo := maxA - r
      let closeEvs : List Ev := if t.is_open then [.closeT] else []
      let t1 := if t.is_open then t.close else t
      match t1.open with
      | (.ok _, t2) =>
          (.connected, t2,
           [.cb .attempting attemptNo maxA] ++ closeEvs
             ++ [.openT, .cb .success attemptNo maxA])
      | (.error _, t2) =>
          if r = 0 then
            (.error, t2,
             [.cb .attempting attemptNo maxA] ++ closeEvs
               ++ [.openT, .cb .failed maxA maxA])
          else
            let sleepEvs : List Ev := if delay > 0 then [.sleep delay] else []
            let delay' := min (cfg.backoffMul delay) cfg.max_reconnect_delay
            let rest := reconnectGo cfg maxA r delay' t2
            (rest.1, rest.2.1,
             [.cb .attempting attemptNo maxA] ++ closeEvs ++ [.openT]
               ++ sleepEvs ++ rest.2.2)

/-- `device_impl_t::_try_reconnect`: one reconnect episode.  The local
`current_delay` starts at `reconnect_delay`; up to `max(1, max_retries)`
attempts run with exponential backoff between them. -/
def tryReconnect (d : Device) : Device × List Ev :=
  let maxA := max 1 d.cfg.max_retries
  let r := reconnectGo d.cfg maxA maxA d.cfg.reconnect_delay d.transport
  ({ d with state := r.1, transport := r.2.1 }, .cb .started 0 maxA :: r.2.2)

/-- `device_impl_t::_handle_error`: with auto-reconnect off, or on a
non-recoverable error, disconnect immediately; otherwise run a reconnect
episode. -/
def handleError (d : Device) (e : ErrorCode) : Device × List Ev :=
  if ¬ d.cfg.auto_reconnect then (d.disconnect, [.closeT])
  else if ¬ isRecoverableError d.cfg e then (d.disconnect, [.closeT])
  else tryReconnect d

/-- The response-reassembly loop of `device_impl_t::_read_response` over
the binary codec, accumulating transport reads of up to 1024 bytes into a
FIFO buffer until `frame_length` reports a complete frame, then decoding
it.  Modelled from the spec: the `ring_buffer_t` it accumulates into is not
in the snapshot and is modelled as an unbounded FIFO byte queue (§4.1,
§4.3); the `fuel` argument bounds the recursion (each productive iteration
consumes at least one byte of the mock's read buffer, so
`read_buffer.length + 1` suffices and the 0 case is unreachable). -/
def readResponseGo (maxFrame : Nat) :
    Nat → List Nat → MockTransport →
      (Except ErrorCode Response) × MockTransport × List Ev
  | 0, _, t => (.error .timeout, t, [])
  | fuel + 1, acc, t =>
      let fl := BinaryCodec.frame_length acc
      if 0 < acc.length ∧ 0 < fl ∧ fl ≤ acc.length then
        ((BinaryCodec.decode maxFrame (acc.take fl)).1, t, [])
      else
        match t.read 1024 with
        | (.error e, t') => (.error e, t', [.readCall])
        | (.ok bytes, t') =>
            if bytes.length = 0 then (.error .timeout, t', [.readCall])
            else if (acc ++ bytes).length > maxFrame then
              (.error .frame_too_large, t', [.readCall])
            else
              let rest := readResponseGo maxFrame fuel (acc ++ bytes) t'
              (rest.1, rest.2.1, .readCall :: rest.2.2)

/-- `device_impl_t::_read_response` (with `handle_error_on_fail = false`,
as called from `execute`). -/
def readResponse (maxFrame : Nat) (t : MockTransport) :
    (Except ErrorCode Response) × MockTransport × List Ev :=
  readResponseGo maxFrame (t.read_buffer.length + 1) [] t

/-- The attempt loop of `device_impl_t::execute`, recursing on the
remaining attempts: write the encoded frame (`write_all`), on success run
the response-reassembly loop; return the first successful response, retry
after `retry_delay` (skipped at 0, and only when attempts remain),
and surface the last error once attempts are exhausted. -/
def executeLoop (maxFrame : Nat) (cfg : DeviceConfig) (frame : List Nat) :
    Nat → ErrorCode → MockTransport →
      (Except ErrorCode Response) × MockTransport × List Ev
  | 0, lastErr, t => (.error lastErr, t, [])
  | n + 1, _, t =>
      let sleepEvs : List Ev :=
        if n = 0 then [] else if cfg.retry_delay > 0 then [.sleep cfg.retry_delay] else []
      match t.write_all frame with
      | (.error e, t1) =>
          let rest := executeLoop maxFrame cfg frame n e t1
          (rest.1, rest.2.1, .writeAttempt :: (sleepEvs ++ rest.2.2))
      | (.ok _, t1) =>
          match readResponse maxFrame t1 with
          | (.ok resp, t2, revs) => (.ok resp, t2, .writeAttempt :: revs)
          | (.error e, t2, revs) =>
              let rest := executeLoop maxFrame cfg frame n e t2
              (rest.1, rest.2.1, .writeAttempt :: (revs ++ sleepEvs ++ rest.2.2))

/-- `device_impl_t::execute`: refuse when not connected, encode (an encode
failure is returned without touching the error-handling path), run up to
`max(1, max_retries)` attempts, and on overall failure classify the last
error through `_handle_error`. -/
def execute (d : Device) (cmd : Command) :
    (Except ErrorCode Response) × Device × List Ev :=
  if ¬ d.is_connected then (.error .not_connected, d, [])
  else
    match BinaryCodec.encode d.codecMaxFrame cmd with
    | .error e => (.error e, d, [])
    | .ok frame =>
        match executeLoop d.codecMaxFrame d.cfg frame
            (max 1 d.cfg.max_retries) .ok d.transport with
        | (.ok resp, t', evs) => (.ok resp, { d with transport := t' }, evs)
        | (.error e, t', evs) =>
            ((.error e : Except ErrorCode Response),
             (handleError { d with transport := t' } e).1,
             evs ++ (handleError { d with transport := t' } e).2)

end Device

/-- Modelled from the spec: the observable trace of one all-attempts-fail
reconnect episode, written from §4.3's reconnect algorithm to be compared
with `Device.reconnectGo` — attempt `maxA - r` is announced, an open
transport is closed first (only possible on the first attempt), the reopen
fails, and if attempts remain the episode sleeps the current delay
(skipping 0) and continues with `min(backoff(delay), max_reconnect_delay)`;
exhaustion emits the `failed` event. -/
def specReconnectEpisode (cfg : DeviceConfig) (maxA : Nat) :
    Bool → Nat → Nat → List Ev
  | _, 0, _ => [.cb .failed maxA maxA]
  | isOpen, r + 1, d =>
      [.cb .attempting (maxA - r) maxA]
        ++ (if isOpen then [.closeT] else []) ++ [.openT]
        ++ (if r = 0 then [.cb .failed maxA maxA]
            else (if d > 0 then [.sleep d] else [])
              ++ specReconnectEpisode cfg maxA false r
                  (min (cfg.backoffMul d) cfg.max_reconnect_delay))

/-! ## Heartbeat runner (`src/heartbeat/heartbeat_runner.cpp`) -/

/-- Heartbeat events passed to the heartbeat callback
(`heartbeat_event_t`). -/
inductive HeartbeatEvent where
  | success
  | failure
  | max_failures
  | stopped
  | paused
  | resumed
  deriving DecidableEq, Repr

/-- The failure branch of one `heartbeat_runner_t::_run_loop` cycle, taken
whenever `_do_heartbeat` returns false — in particular under a strategy
whose `validate_response` always fails: increment the failure counter (a
`uint8` atomic, hence `% 256`), and either emit `max_failures` — resetting
the counter when `auto_reset_failures` is set — or emit `failure`. -/
def heartbeatFailStep (maxFailures : Nat) (autoReset : Bool) (fc : Nat) :
    Nat × HeartbeatEvent :=
  let f := (fc + 1) % 256
  if f ≥ maxFailures then
    ((if autoReset then 0 else f), .max_failures)
  else
    (f, .failure)

/-- `n` consecutive always-failing heartbeat cycles from failure count
`fc`: the events emitted, in order, and the final counter. -/
def heartbeatFailRun (maxFailures : Nat) (autoReset : Bool) :
    Nat → Nat → List HeartbeatEvent × Nat
  | 0, fc => ([], fc)
  | n + 1, fc =>
      ((heartbeatFailStep maxFailures autoReset fc).2
         :: (heartbeatFailRun maxFailures autoReset n
              (heartbeatFailStep maxFailures autoReset fc).1).1,
       (heartbeatFailRun maxFailures autoReset n
         (heartbeatFailStep maxFailures autoReset fc).1).2)

/-! ## Concrete inputs used by counterexamples and witnesses -/

/-- A command whose payload length (65536) does not fit the 16-bit LEN
field. -/
def bigPayloadCmd : Command :=
  { function_code := 0, data := List.replicate 65536 0 }

/-- The SOF/LEN/FUNC/DATA portion of `bigPayloadCmd`'s encoded frame: the
LEN field holds `65536 % 65536 = 0`. -/
def bigBody : List Nat :=
  [BinaryCodec.SOF, 0, 0, 0] ++ List.replicate 65536 0

/-- A configuration exercising the reconnect backoff: 3 attempts, initial
delay 10 ms, cap 25 ms, doubling backoff. -/
def backoffCfg : DeviceConfig :=
  { max_retries := 3, reconnect_delay := 10, max_reconnect_delay := 25,
    backoffMul := fun d => 2 * d }

/-- A connected device whose transport is open but always fails reopen. -/
def failingOpenDevice : Device :=
  { transport := { is_open := true, should_fail_open := true },
    state := .connected, cfg := backoffCfg }

/-- A connected device over a given mock transport, binary-codec max frame
size and configuration. -/
def connDevice (t : MockTransport) (maxFrame : Nat) (cfg : DeviceConfig) : Device :=
  { transport := t, codecMaxFrame := maxFrame, state := .connected, cfg := cfg }

/-- The response command of the concrete retry scenario. -/
def respCmdW : Command := { function_code := 7, data := [9, 8] }

/-- `respCmdW`'s encoded frame (CRC16 of `AA 02 00 07 09 08` is `0x93B9`). -/
def frameW : List Nat := [0xAA, 2, 0, 7, 9, 8, 0xB9, 0x93]

/-- A transport that fails `write` twice, then succeeds, with `frameW`
preloaded for reading. -/
def retryTransportW : MockTransport :=
  { is_open := true, fail_write_times := 2, read_buffer := frameW }

/-- A configuration with `max_retries = 3`. -/
def retryCfgW : DeviceConfig := { max_retries := 3 }

end VDL
namespace VDL

theorem lor_shift8 (a b : Nat) (ha : a < 256) : a ||| (b <<< 8) = a + 256 * b := by
  have h : (2 : Nat) ^ 8 * b + a = 2 ^ 8 * b ||| a := Nat.mul_add_lt_is_or ha b
  rw [Nat.shiftLeft_eq, Nat.lor_comm, Nat.mul_comm b (2 ^ 8), ← h]
  norm_num
  omega

namespace BinaryCodec

theorem crcShift_lt (c : Nat) : crcShift c < 65536 := by
  unfold crcShift
  split <;> exact Nat.mod_lt _ (by norm_num)

theorem crcBits_succ_lt (j c : Nat) : crcBits (j + 1) c < 65536 := by
  induction j generalizing c with
  | zero => exact crcShift_lt c
  | succ k ih => exact ih (crcShift c)

theorem crcByte_lt (c b : Nat) : crcByte c b < 65536 :=
  crcBits_succ_lt 7 _

theorem foldl_crcByte_lt (l : List Nat) : ∀ c, c < 65536 → l.foldl crcByte c < 65536 := by
  induction l with
  | nil => intro c hc; simpa using hc
  | cons b t ih => intro c hc; simp only [List.foldl_cons]; exact ih _ (crcByte_lt c b)

theorem crc16_lt (data : List Nat) : crc16 data < 65536 :=
  foldl_crcByte_lt data 0xFFFF (by norm_num)

end BinaryCodec
end VDL
namespace VDL
namespace BinaryCodec

theorem decode_encoded (maxFrame fc : Nat) (data : List Nat) (c : Nat)
    (hfit : data.length + 6 ≤ maxFrame) (h16 : data.length < 65536) (hc : c < 65536)
    (hcrc : crc16 (SOF :: data.length % 256 :: (data.length >>> 8) % 256 :: fc :: data) = c) :
    decode maxFrame
      ((SOF :: data.length % 256 :: (data.length >>> 8) % 256 :: fc :: data)
        ++ [c % 256, (c >>> 8) % 256]) =
      (.ok { status := .success, function_code := fc, data := data,
             raw_frame := (SOF :: data.length % 256 :: (data.length >>> 8) % 256 :: fc :: data)
               ++ [c % 256, (c >>> 8) % 256] },
       4 + data.length + 2) := by
  set l := data.length with hl
  set buf := (SOF :: l % 256 :: (l >>> 8) % 256 :: fc :: data) ++ [c % 256, (c >>> 8) % 256] with hbuf
  have hlen : buf.length = l + 6 := by simp [hbuf]
  have h1 : buf.getD 1 0 = l % 256 := by simp [hbuf]
  have h2 : buf.getD 2 0 = (l >>> 8) % 256 := by simp [hbuf]
  have h3 : buf.getD 3 0 = fc := by simp [hbuf]
  have hdiv : l / 256 < 256 := Nat.div_lt_of_lt_mul (by omega)
  have hdl : buf.getD 1 0 ||| (buf.getD 2 0 <<< 8) = l := by
    rw [h1, h2, lor_shift8 _ _ (Nat.mod_lt _ (by norm_num)), Nat.shiftRight_eq_div_pow]
    have h256 : l / 2 ^ 8 % 256 = l / 256 := by
      norm_num [Nat.mod_eq_of_lt hdiv]
    rw [h256]
    have := Nat.mod_add_div l 256
    omega
  have hlen4 : (SOF :: l % 256 :: (l >>> 8) % 256 :: fc :: data).length = l + 4 := by
    simp
  have h4 : buf.getD (l + 4) 0 = c % 256 := by
    rw [hbuf, List.getD_eq_getElem?_getD,
      List.getElem?_append_right (hlen4 ▸ Nat.le_refl _), hlen4]
    simp
  have h5 : buf.getD (l + 5) 0 = (c >>> 8) % 256 := by
    rw [hbuf, List.getD_eq_getElem?_getD,
      List.getElem?_append_right (by rw [hlen4]; omega), hlen4]
    have : l + 5 - (l + 4) = 1 := by omega
    rw [this]
    simp
  have hcdiv : c / 256 < 256 := Nat.div_lt_of_lt_mul (by omega)
  have hactual : c % 256 ||| (((c >>> 8) % 256) <<< 8) = c := by
    rw [lor_shift8 _ _ (Nat.mod_lt _ (by norm_num)), Nat.shiftRight_eq_div_pow]
    have h256 : c / 2 ^ 8 % 256 = c / 256 := by
      norm_num [Nat.mod_eq_of_lt hcdiv]
    rw [h256]
    have := Nat.mod_add_div c 256
    omega
  have hsof : buf.findIdx (· = SOF) = 0 := by
    rw [hbuf]
    simp [List.findIdx_cons]
  have hdrop : buf.drop 4 = data ++ [c % 256, (c >>> 8) % 256] := by
    rw [hbuf]
    simp
  simp only [decode, MIN_FRAME_SIZE, HEADER_SIZE, CRC_SIZE, hlen, hsof, hdl]
  rw [if_neg (by omega), if_neg (by omega), if_neg (by omega), if_neg (by omega)]
  have hi2 : 4 + l + 2 - 2 = l + 4 := by omega
  have hi1 : 4 + l + 2 - 1 = l + 5 := by omega
  rw [hi2, hi1, h4, h5, hactual]
  have htake4 : List.take (l + 4) buf = SOF :: l % 256 :: (l >>> 8) % 256 :: fc :: data := by
    rw [hbuf]
    exact List.take_left' hlen4
  rw [htake4, hcrc, if_neg (by simp)]
  have hdata : List.take l (List.drop 4 buf) = data := by
    rw [hdrop]
    exact List.take_left' hl.symm
  have hraw : List.take (4 + l + 2) buf = buf := by
    have h : 4 + l + 2 = buf.length := by omega
    rw [h, List.take_length]
  rw [h3, hdata, hraw]

end BinaryCodec
end VDL
namespace VDL
namespace BinaryCodec

theorem encode_eq (maxFrame : Nat) (cmd : Command) (hfit : cmd.data.length + 6 ≤ maxFrame) :
    encode maxFrame cmd =
      .ok ((SOF :: cmd.data.length % 256 :: (cmd.data.length >>> 8) % 256
              :: cmd.function_code :: cmd.data)
        ++ [crc16 (SOF :: cmd.data.length % 256 :: (cmd.data.length >>> 8) % 256
              :: cmd.function_code :: cmd.data) % 256,
            (crc16 (SOF :: cmd.data.length % 256 :: (cmd.data.length >>> 8) % 256
              :: cmd.function_code :: cmd.data) >>> 8) % 256]) := by
  simp only [encode, HEADER_SIZE, CRC_SIZE]
  rw [if_neg (by omega)]
  rfl

theorem roundtrip_core (maxFrame : Nat) (cmd : Command)
    (hfit : cmd.data.length + 6 ≤ maxFrame) (h16 : cmd.data.length < 65536) :
    ∃ frame, encode maxFrame cmd = .ok frame ∧ frame.length = cmd.data.length + 6 ∧
      decode maxFrame frame =
        (.ok { status := .success, function_code := cmd.function_code,
               data := cmd.data, raw_frame := frame }, cmd.data.length + 6) := by
  refine ⟨_, encode_eq maxFrame cmd hfit, by simp, ?_⟩
  have h := decode_encoded maxFrame cmd.function_code cmd.data
    (crc16 (SOF :: cmd.data.length % 256 :: (cmd.data.length >>> 8) % 256
      :: cmd.function_code :: cmd.data)) hfit h16 (crc16_lt _) rfl
  rw [h]
  have harith : 4 + cmd.data.length + 2 = cmd.data.length + 6 := by omega
  rw [harith]

theorem decode_zero_len (maxFrame : Nat) (b3 b4 b5 : Nat) (rest : List Nat)
    (hmax : 6 ≤ maxFrame)
    (hne : crc16 [SOF, 0, 0, b3] ≠ b4 ||| (b5 <<< 8)) :
    (decode maxFrame (SOF :: 0 :: 0 :: b3 :: b4 :: b5 :: rest)).1
      = .error .checksum_error := by
  set buf := SOF :: 0 :: 0 :: b3 :: b4 :: b5 :: rest with hbuf
  have hlen : buf.length = rest.length + 6 := by simp [hbuf]
  have hsof : buf.findIdx (· = SOF) = 0 := by
    rw [hbuf]
    simp [List.findIdx_cons]
  have hdl : buf.getD 1 0 ||| buf.getD 2 0 <<< 8 = 0 := by
    rw [hbuf]
    simp
  simp only [decode, MIN_FRAME_SIZE, HEADER_SIZE, CRC_SIZE, hlen, hsof, hdl]
  rw [if_neg (by omega), if_neg (by omega), if_neg (by omega), if_neg (by omega)]
  have htake : List.take (4 + 0 + 2 - 2) buf = [SOF, 0, 0, b3] := by
    rw [hbuf]
    rfl
  have h4 : buf.getD (4 + 0 + 2 - 2) 0 = b4 := by rw [hbuf]; rfl
  have h5 : buf.getD (4 + 0 + 2 - 1) 0 = b5 := by rw [hbuf]; rfl
  rw [htake, h4, h5, if_pos hne]

end BinaryCodec
end VDL
namespace VDL

/-- **C1** (amended: payloads must also fit the 16-bit LEN field, i.e. be
shorter than 65536 bytes).  For every command whose payload length is at
most `max_frame_size − 6` (read as `len + 6 ≤ max_frame_size`) and below
65536, `decode` applied to the bytes produced by `encode` succeeds, sets
`consumed` to the encoded frame's length, and yields a response whose
function code and payload equal the command's exactly. -/
theorem binary_codec_roundtrip (maxFrame : Nat) (cmd : Command)
    (hfit : cmd.data.length + 6 ≤ maxFrame) (h16 : cmd.data.length < 65536) :
    ∃ frame, BinaryCodec.encode maxFrame cmd = .ok frame ∧
      (BinaryCodec.decode maxFrame frame).2 = frame.length ∧
      ∃ resp, (BinaryCodec.decode maxFrame frame).1 = .ok resp ∧
        resp.function_code = cmd.function_code ∧ resp.data = cmd.data := by
  obtain ⟨frame, henc, hlen, hdec⟩ := BinaryCodec.roundtrip_core maxFrame cmd hfit h16
  refine ⟨frame, henc, by rw [hdec, hlen], ?_⟩
  exact ⟨_, by rw [hdec], rfl, rfl⟩

/-- Witness for `binary_codec_roundtrip` at a concrete command. -/
theorem binary_codec_roundtrip_witness :
    ((Command.mk 3 [1, 2]).data.length + 6 ≤ 65536 ∧
      (Command.mk 3 [1, 2]).data.length < 65536) ∧
    ∃ frame, BinaryCodec.encode 65536 (Command.mk 3 [1, 2]) = .ok frame ∧
      (BinaryCodec.decode 65536 frame).2 = frame.length ∧
      ∃ resp, (BinaryCodec.decode 65536 frame).1 = .ok resp ∧
        resp.function_code = (Command.mk 3 [1, 2]).function_code ∧
        resp.data = (Command.mk 3 [1, 2]).data :=
  ⟨⟨by decide, by decide⟩,
   binary_codec_roundtrip 65536 (Command.mk 3 [1, 2]) (by decide) (by decide)⟩

set_option maxRecDepth 8000 in
/-- **C1** counterexample: with `max_frame_size = 70000`, the 65536-byte
payload satisfies the claim's bound `len ≤ max_frame_size − 6` and `encode`
succeeds, but the LEN field stores `65536 % 65536 = 0`, so `decode` of the
encoded frame fails with `checksum_error` instead of returning the
payload. -/
theorem binary_codec_roundtrip_counterexample :
    bigPayloadCmd.data.length + 6 ≤ 70000 ∧
    BinaryCodec.encode 70000 bigPayloadCmd =
      .ok (bigBody
        ++ [BinaryCodec.crc16 bigBody % 256, (BinaryCodec.crc16 bigBody >>> 8) % 256]) ∧
    (BinaryCodec.decode 70000 (bigBody
        ++ [BinaryCodec.crc16 bigBody % 256,
            (BinaryCodec.crc16 bigBody >>> 8) % 256])).1
      = .error .checksum_error := by
  have hrep : List.replicate 65536 (0 : Nat) = 0 :: 0 :: List.replicate 65534 0 := by
    rw [show (65536 : Nat) = 65535 + 1 by norm_num, List.replicate_succ,
        show (65535 : Nat) = 65534 + 1 by norm_num, List.replicate_succ]
  have hlen : bigPayloadCmd.data.length = 65536 := List.length_replicate 65536 0
  have hbody : bigBody = BinaryCodec.SOF :: 0 :: 0 :: 0 :: List.replicate 65536 0 := rfl
  refine ⟨by rw [hlen]; norm_num, ?_, ?_⟩
  · rw [BinaryCodec.encode_eq 70000 bigPayloadCmd (by rw [hlen]; norm_num)]
    have h1 : bigPayloadCmd.data.length % 256 = 0 := by rw [hlen]
    have h2 : (bigPayloadCmd.data.length >>> 8) % 256 = 0 := by rw [hlen]; decide
    have h3 : bigPayloadCmd.function_code = 0 := rfl
    have h4 : bigPayloadCmd.data = List.replicate 65536 0 := rfl
    rw [h1, h2, h3, h4, hbody]
  · generalize BinaryCodec.crc16 bigBody = c0
    rw [hbody, hrep]
    have h := BinaryCodec.decode_zero_len 70000 0 0 0
      (List.replicate 65534 0 ++ [c0 % 256, (c0 >>> 8) % 256])
      (by norm_num) (by decide)
    simp only [List.cons_append] at h ⊢
    exact h

end VDL
namespace VDL

/-- **C8** counterexample: the 3-byte buffer `[0xAA, 0x00, 0x00]` holds
fewer than 6 bytes, yet `frame_length` returns the computed frame length 6,
not 0 — the LEN field is already readable after 3 bytes (the unit tests pin
this behaviour: a 4-byte header yields `frame_length = 11`). -/
theorem frame_length_short_counterexample :
    ([0xAA, 0, 0] : List Nat).length < 6 ∧
    BinaryCodec.frame_length [0xAA, 0, 0] = 6 ∧
    BinaryCodec.frame_length [0xAA, 0, 0] ≠ 0 := by
  decide

/-- **C8** (amended: `frame_length` is 0 on a short buffer only below 3
bytes or when the first byte is not SOF).  For every buffer of fewer than
6 bytes, `decode` fails with `incomplete_frame` and consumes nothing;
`frame_length` returns 0 when the buffer has fewer than 3 bytes, and also
whenever its first byte is not SOF. -/
theorem decode_short_buffer (maxFrame : Nat) (buf : List Nat) (h : buf.length < 6) :
    BinaryCodec.decode maxFrame buf = (.error .incomplete_frame, 0) ∧
    (buf.length < 3 → BinaryCodec.frame_length buf = 0) ∧
    (buf.getD 0 0 ≠ BinaryCodec.SOF → BinaryCodec.frame_length buf = 0) := by
  refine ⟨?_, ?_, ?_⟩
  · simp only [BinaryCodec.decode, BinaryCodec.MIN_FRAME_SIZE]
    rw [if_pos h]
  · intro h3
    simp only [BinaryCodec.frame_length]
    rw [if_pos h3]
  · intro hs
    unfold BinaryCodec.frame_length
    by_cases h3 : buf.length < 3
    · rw [if_pos h3]
    · rw [if_neg h3, if_pos hs]

/-- Witness for `decode_short_buffer` at the concrete buffer `[1, 2]`. -/
theorem decode_short_buffer_witness :
    ([1, 2] : List Nat).length < 6 ∧
    (BinaryCodec.decode 65536 [1, 2] = (.error .incomplete_frame, 0) ∧
     (([1, 2] : List Nat).length < 3 → BinaryCodec.frame_length [1, 2] = 0) ∧
     (([1, 2] : List Nat).getD 0 0 ≠ BinaryCodec.SOF →
        BinaryCodec.frame_length [1, 2] = 0)) :=
  ⟨by decide, decode_short_buffer 65536 [1, 2] (by decide)⟩

end VDL
namespace VDL

theorem memcpyAt_length (buf src : List Nat) (pos : Nat)
    (h : pos + src.length ≤ buf.length) :
    (memcpyAt buf pos src).length = buf.length := by
  simp [memcpyAt]
  omega

theorem memcpyAt_getElem_lt (buf src : List Nat) (pos j : Nat)
    (h : pos + src.length ≤ buf.length) (hj : j < pos) :
    (memcpyAt buf pos src)[j]? = buf[j]? := by
  unfold memcpyAt
  have hp : (buf.take pos ++ src).length = pos + src.length := by simp; omega
  rw [List.getElem?_append_left (by rw [hp]; omega),
    List.getElem?_append_left (by simp; omega)]
  exact List.getElem?_take_of_lt hj

theorem memcpyAt_getElem_mid (buf src : List Nat) (pos j : Nat)
    (h : pos + src.length ≤ buf.length) (hj1 : pos ≤ j) (hj2 : j < pos + src.length) :
    (memcpyAt buf pos src)[j]? = src[j - pos]? := by
  unfold memcpyAt
  have hp : (buf.take pos ++ src).length = pos + src.length := by simp; omega
  have hp2 : (buf.take pos).length = pos := by simp; omega
  rw [List.getElem?_append_left (by rw [hp]; omega),
    List.getElem?_append_right (by rw [hp2]; omega), hp2]

theorem memcpyAt_getElem_ge (buf src : List Nat) (pos j : Nat)
    (h : pos + src.length ≤ buf.length) (hj : pos + src.length ≤ j) :
    (memcpyAt buf pos src)[j]? = buf[j]? := by
  unfold memcpyAt
  have hp : (buf.take pos ++ src).length = pos + src.length := by simp; omega
  rw [List.getElem?_append_right (by rw [hp]; omega), hp, List.getElem?_drop]
  congr 1
  omega

end VDL
namespace VDL
namespace CircularBuffer

theorem contents_length (s : CircularBuffer) (h : s.Inv) :
    s.contents.length = s.data_size := by
  obtain ⟨hb, hc, hrp, hsz, hwp⟩ := h
  simp [contents]
  omega

theorem contents_getElem (s : CircularBuffer) (h : s.Inv) (i : Nat)
    (hi : i < s.data_size) :
    s.contents[i]? = s.buffer[(s.read_pos + i) % s.capacity]? := by
  obtain ⟨hb, hc, hrp, hsz, hwp⟩ := h
  unfold contents
  rw [List.getElem?_take_of_lt hi]
  by_cases hcase : s.read_pos + i < s.capacity
  · have hm : (s.read_pos + i) % s.capacity = s.read_pos + i :=
      Nat.mod_eq_of_lt hcase
    rw [hm, List.getElem?_append_left (by simp; omega), List.getElem?_drop]
  · have hm : (s.read_pos + i) % s.capacity = s.read_pos + i - s.capacity := by
      rw [Nat.mod_eq_sub_mod (by omega)]
      exact Nat.mod_eq_of_lt (by omega)
    rw [hm, List.getElem?_append_right (by simp; omega)]
    have hlt : i - (s.buffer.drop s.read_pos).length < s.read_pos := by
      simp
      omega
    rw [List.getElem?_take_of_lt hlt]
    congr 1
    simp
    omega

theorem Inv_advance (s : CircularBuffer) (h : s.Inv) (tr : Nat)
    (htr : tr ≤ s.data_size) :
    Inv { s with read_pos := (s.read_pos + tr) % s.capacity,
                 data_size := s.data_size - tr } := by
  obtain ⟨hb, hc, hrp, hsz, hwp⟩ := h
  refine ⟨hb, hc, Nat.mod_lt _ hc, by show s.data_size - tr ≤ s.capacity; omega, ?_⟩
  show s.write_pos = ((s.read_pos + tr) % s.capacity + (s.data_size - tr)) % s.capacity
  rw [hwp, Nat.mod_add_mod]
  congr 1
  omega

theorem contents_advance (s : CircularBuffer) (h : s.Inv) (tr : Nat)
    (htr : tr ≤ s.data_size) :
    ({ s with read_pos := (s.read_pos + tr) % s.capacity,
              data_size := s.data_size - tr } : CircularBuffer).contents
      = s.contents.drop tr := by
  have h' := Inv_advance s h tr htr
  obtain ⟨hb, hc, hrp, hsz, hwp⟩ := h
  apply List.ext_getElem?
  intro i
  by_cases hi : i < s.data_size - tr
  · rw [contents_getElem _ h' i (by show i < s.data_size - tr; omega), List.getElem?_drop,
      contents_getElem s ⟨hb, hc, hrp, hsz, hwp⟩ (tr + i) (by omega)]
    show s.buffer[((s.read_pos + tr) % s.capacity + i) % s.capacity]? = _
    rw [Nat.mod_add_mod]
    congr 2
    omega
  · rw [List.getElem?_eq_none, List.getElem?_eq_none]
    · rw [List.length_drop, contents_length s ⟨hb, hc, hrp, hsz, hwp⟩]
      omega
    · rw [contents_length _ h']
      show s.data_size - tr ≤ i
      omega

end CircularBuffer
end VDL
namespace VDL
namespace CircularBuffer

theorem copyOut_eq (s : CircularBuffer) (h : s.Inv) (n : Nat)
    (hn : n ≤ s.data_size) :
    s.copyOut n = s.contents.take n := by
  obtain ⟨hb, hc, hrp, hsz, hwp⟩ := h
  unfold copyOut contents
  rw [List.take_take, Nat.min_eq_left hn, List.take_append_eq_append_take]
  by_cases hcase : s.read_pos + n ≤ s.capacity
  · rw [if_pos hcase]
    have h0 : n - (s.buffer.drop s.read_pos).length = 0 := by simp; omega
    rw [h0]
    simp
  · rw [if_neg hcase]
    dsimp only
    have h1 : (s.buffer.drop s.read_pos).take (s.capacity - s.read_pos)
        = s.buffer.drop s.read_pos := by
      apply List.take_of_length_le
      simp
      omega
    have h2 : (s.buffer.drop s.read_pos).take n = s.buffer.drop s.read_pos := by
      apply List.take_of_length_le
      simp
      omega
    rw [h1, h2, List.take_take]
    have h3 : min (n - (s.buffer.drop s.read_pos).length) s.read_pos
        = n - (s.capacity - s.read_pos) := by
      simp
      omega
    rw [h3]

end CircularBuffer
end VDL
namespace VDL
namespace CircularBuffer

theorem write_getElem_old (s : CircularBuffer) (h : s.Inv) (src : List Nat)
    (tw : Nat) (hsl : src.length = tw)
    (hfit : tw ≤ s.capacity - s.data_size) (i : Nat) (hi : i < s.data_size) :
    (if s.write_pos + tw ≤ s.capacity then
        memcpyAt s.buffer s.write_pos src
      else
        memcpyAt (memcpyAt s.buffer s.write_pos
          (src.take (s.capacity - s.write_pos))) 0
          (src.drop (s.capacity - s.write_pos)))[(s.read_pos + i) % s.capacity]?
      = s.buffer[(s.read_pos + i) % s.capacity]? := by
  subst hsl
  obtain ⟨hb, hc, hrp, hsz, hwp⟩ := h
  have hbl : s.buffer.length = s.capacity := hb
  by_cases hrs : s.read_pos + s.data_size < s.capacity
  · have hwpv : s.write_pos = s.read_pos + s.data_size := by
      rw [hwp]
      exact Nat.mod_eq_of_lt hrs
    have hri : s.read_pos + i < s.capacity := by omega
    have hj : (s.read_pos + i) % s.capacity = s.read_pos + i :=
      Nat.mod_eq_of_lt hri
    rw [hj]
    by_cases hw : s.write_pos + src.length ≤ s.capacity
    · rw [if_pos hw]
      exact memcpyAt_getElem_lt _ _ _ _ (by omega) (by omega)
    · rw [if_neg hw]
      have hlen1 : (src.take (s.capacity - s.write_pos)).length
          = s.capacity - s.write_pos := by simp; omega
      have hinner : (memcpyAt s.buffer s.write_pos
          (src.take (s.capacity - s.write_pos))).length = s.capacity := by
        rw [memcpyAt_length _ _ _ (by rw [hlen1]; omega)]
        exact hb
      rw [memcpyAt_getElem_ge _ _ _ _ (by rw [hinner]; simp; omega) (by simp; omega)]
      exact memcpyAt_getElem_lt _ _ _ _ (by rw [hlen1]; omega) (by omega)
  · have hwpv : s.write_pos = s.read_pos + s.data_size - s.capacity := by
      rw [hwp, Nat.mod_eq_sub_mod (by omega)]
      exact Nat.mod_eq_of_lt (by omega)
    have hw : s.write_pos + src.length ≤ s.capacity := by omega
    rw [if_pos hw]
    by_cases hri : s.read_pos + i < s.capacity
    · have hj : (s.read_pos + i) % s.capacity = s.read_pos + i :=
        Nat.mod_eq_of_lt hri
      rw [hj]
      exact memcpyAt_getElem_ge _ _ _ _ (by omega) (by omega)
    · have hj : (s.read_pos + i) % s.capacity = s.read_pos + i - s.capacity := by
        rw [Nat.mod_eq_sub_mod (by omega)]
        exact Nat.mod_eq_of_lt (by omega)
      rw [hj]
      exact memcpyAt_getElem_lt _ _ _ _ (by omega) (by omega)

end CircularBuffer
end VDL
namespace VDL
namespace CircularBuffer

theorem write_getElem_new (s : CircularBuffer) (h : s.Inv) (src : List Nat)
    (tw : Nat) (hsl : src.length = tw)
    (hfit : tw ≤ s.capacity - s.data_size) (i : Nat) (hi : i < src.length) :
    (if s.write_pos + tw ≤ s.capacity then
        memcpyAt s.buffer s.write_pos src
      else
        memcpyAt (memcpyAt s.buffer s.write_pos
          (src.take (s.capacity - s.write_pos))) 0
          (src.drop (s.capacity - s.write_pos)))[(s.read_pos + (s.data_size + i)) % s.capacity]?
      = src[i]? := by
  subst hsl
  obtain ⟨hb, hc, hrp, hsz, hwp⟩ := h
  by_cases hrs : s.read_pos + s.data_size < s.capacity
  · have hwpv : s.write_pos = s.read_pos + s.data_size := by
      rw [hwp]
      exact Nat.mod_eq_of_lt hrs
    by_cases hw : s.write_pos + src.length ≤ s.capacity
    · rw [if_pos hw]
      have hj : (s.read_pos + (s.data_size + i)) % s.capacity
          = s.write_pos + i := by
        rw [Nat.mod_eq_of_lt (by omega)]
        omega
      rw [hj, memcpyAt_getElem_mid _ _ _ _ (by omega) (by omega) (by omega)]
      congr 1
      omega
    · rw [if_neg hw]
      have hlen1 : (src.take (s.capacity - s.write_pos)).length
          = s.capacity - s.write_pos := by simp; omega
      have hinner : (memcpyAt s.buffer s.write_pos
          (src.take (s.capacity - s.write_pos))).length = s.capacity := by
        rw [memcpyAt_length _ _ _ (by rw [hlen1]; omega)]
        exact hb
      by_cases hric : s.read_pos + s.data_size + i < s.capacity
      · have hj : (s.read_pos + (s.data_size + i)) % s.capacity
            = s.write_pos + i := by
          rw [Nat.mod_eq_of_lt (by omega)]
          omega
        rw [hj, memcpyAt_getElem_ge _ _ _ _ (by rw [hinner]; simp; omega) (by simp; omega),
          memcpyAt_getElem_mid _ _ _ _ (by rw [hlen1]; omega) (by omega) (by rw [hlen1]; omega)]
        rw [List.getElem?_take_of_lt (by omega)]
        congr 1
        omega
      · have hj : (s.read_pos + (s.data_size + i)) % s.capacity
            = s.write_pos + i - s.capacity := by
          rw [Nat.mod_eq_sub_mod (by omega)]
          rw [Nat.mod_eq_of_lt (by omega)]
          omega
        rw [hj, memcpyAt_getElem_mid _ _ _ _ (by rw [hinner]; simp; omega) (by omega) (by simp; omega),
          List.getElem?_drop]
        congr 1
        omega
  · have hwpv : s.write_pos = s.read_pos + s.data_size - s.capacity := by
      rw [hwp, Nat.mod_eq_sub_mod (by omega)]
      exact Nat.mod_eq_of_lt (by omega)
    have hw : s.write_pos + src.length ≤ s.capacity := by omega
    rw [if_pos hw]
    have hj : (s.read_pos + (s.data_size + i)) % s.capacity
        = s.write_pos + i := by
      rw [Nat.mod_eq_sub_mod (by omega)]
      rw [Nat.mod_eq_of_lt (by omega)]
      omega
    rw [hj, memcpyAt_getElem_mid _ _ _ _ (by omega) (by omega) (by omega)]
    congr 1
    omega

end CircularBuffer
end VDL
namespace VDL
namespace CircularBuffer

theorem write_spec (s : CircularBuffer) (h : s.Inv) (data : List Nat) :
    (s.write data).1 = min data.length (s.capacity - s.data_size) ∧
    (s.write data).2.Inv ∧
    (s.write data).2.capacity = s.capacity ∧
    (s.write data).2.contents = s.contents ++ data.take (s.capacity - s.data_size) := by
  have hInv := h
  obtain ⟨hb, hc, hrp, hsz, hwp⟩ := h
  unfold write
  dsimp only
  by_cases h0 : min data.length (s.capacity - s.data_size) = 0
  · rw [if_pos h0]
    refine ⟨h0.symm, hInv, rfl, ?_⟩
    have hnil : data.take (s.capacity - s.data_size) = [] := by
      rcases Nat.min_eq_zero_iff.mp h0 with hd | ha
      · rw [List.eq_nil_of_length_eq_zero hd]
        simp
      · rw [ha]
        simp
    rw [hnil, List.append_nil]
  · rw [if_neg h0]
    have hwplt : s.write_pos < s.capacity := by
      rw [hwp]
      exact Nat.mod_lt _ hc
    have htw : (data.take (min data.length (s.capacity - s.data_size))).length
        = min data.length (s.capacity - s.data_size) := by simp
    have hblen : (if s.write_pos + min data.length (s.capacity - s.data_size)
          ≤ s.capacity then
        memcpyAt s.buffer s.write_pos
          (data.take (min data.length (s.capacity - s.data_size)))
      else
        memcpyAt (memcpyAt s.buffer s.write_pos
          ((data.take (min data.length (s.capacity - s.data_size))).take
            (s.capacity - s.write_pos))) 0
          ((data.take (min data.length (s.capacity - s.data_size))).drop
            (s.capacity - s.write_pos))).length = s.capacity := by
      split
      · rw [memcpyAt_length _ _ _ (by rw [htw]; omega)]
        exact hb
      · rw [memcpyAt_length, memcpyAt_length _ _ _ (by simp; omega)]
        · exact hb
        · rw [memcpyAt_length _ _ _ (by simp; omega)]
          simp
          omega
    have hInv' : Inv { s with
        buffer := if s.write_pos + min data.length (s.capacity - s.data_size)
              ≤ s.capacity then
            memcpyAt s.buffer s.write_pos
              (data.take (min data.length (s.capacity - s.data_size)))
          else
            memcpyAt (memcpyAt s.buffer s.write_pos
              ((data.take (min data.length (s.capacity - s.data_size))).take
                (s.capacity - s.write_pos))) 0
              ((data.take (min data.length (s.capacity - s.data_size))).drop
                (s.capacity - s.write_pos))
        write_pos := (s.write_pos
            + min data.length (s.capacity - s.data_size)) % s.capacity
        data_size := s.data_size + min data.length (s.capacity - s.data_size) } := by
      refine ⟨hblen, hc, hrp,
        by show s.data_size + min data.length (s.capacity - s.data_size)
             ≤ s.capacity; omega, ?_⟩
      show (s.write_pos + min data.length (s.capacity - s.data_size)) % s.capacity
        = (s.read_pos + (s.data_size + min data.length (s.capacity - s.data_size)))
            % s.capacity
      rw [hwp, Nat.mod_add_mod]
      congr 1
      omega
    have hsrc2 : data.take (s.capacity - s.data_size)
        = data.take (min data.length (s.capacity - s.data_size)) := by
      by_cases hle : data.length ≤ s.capacity - s.data_size
      · rw [Nat.min_eq_left hle, List.take_length, List.take_of_length_le hle]
      · rw [Nat.min_eq_right (by omega)]
    refine ⟨rfl, hInv', rfl, ?_⟩
    apply List.ext_getElem?
    intro i
    by_cases hi1 : i < s.data_size
    · rw [contents_getElem _ hInv' i
        (by show i < s.data_size + min data.length (s.capacity - s.data_size); omega)]
      rw [write_getElem_old s ⟨hb, hc, hrp, hsz, hwp⟩ _ _ htw (by omega) i hi1,
        ← contents_getElem s ⟨hb, hc, hrp, hsz, hwp⟩ i hi1,
        List.getElem?_append_left
          (by rw [contents_length s ⟨hb, hc, hrp, hsz, hwp⟩]; omega)]
    · by_cases hi2 : i < s.data_size + min data.length (s.capacity - s.data_size)
      · rw [contents_getElem _ hInv' i
          (by show i < s.data_size + min data.length (s.capacity - s.data_size); omega)]
        rw [show s.read_pos + i
              = s.read_pos + (s.data_size + (i - s.data_size)) by omega,
          write_getElem_new s ⟨hb, hc, hrp, hsz, hwp⟩ _ _ htw (by omega)
            (i - s.data_size) (by rw [htw]; omega),
          List.getElem?_append_right
            (by rw [contents_length s ⟨hb, hc, hrp, hsz, hwp⟩]; omega),
          contents_length s ⟨hb, hc, hrp, hsz, hwp⟩, hsrc2]
      · rw [List.getElem?_eq_none, List.getElem?_eq_none]
        · rw [List.length_append, contents_length s ⟨hb, hc, hrp, hsz, hwp⟩]
          simp
          omega
        · rw [contents_length _ hInv']
          show s.data_size + min data.length (s.capacity - s.data_size) ≤ i
          omega

end CircularBuffer
end VDL
namespace VDL
namespace CircularBuffer

theorem read_spec (s : CircularBuffer) (h : s.Inv) (n : Nat) :
    (s.read n).1 = s.contents.take n ∧
    (s.read n).2.Inv ∧
    (s.read n).2.capacity = s.capacity ∧
    (s.read n).2.contents = s.contents.drop n := by
  have hcl := contents_length s h
  obtain ⟨hb, hc, hrp, hsz, hwp⟩ := h
  unfold read
  dsimp only
  by_cases h0 : min n s.data_size = 0
  · rw [if_pos h0]
    have h1 : s.contents.take n = [] := by
      rcases Nat.min_eq_zero_iff.mp h0 with hn | hd
      · rw [hn, List.take_zero]
      · have hnl : s.contents = [] :=
          List.eq_nil_of_length_eq_zero (by rw [hcl]; exact hd)
        rw [hnl]
        simp
    have h2 : s.contents.drop n = s.contents := by
      rcases Nat.min_eq_zero_iff.mp h0 with hn | hd
      · rw [hn, List.drop_zero]
      · have hnl : s.contents = [] :=
          List.eq_nil_of_length_eq_zero (by rw [hcl]; exact hd)
        rw [hnl]
        simp
    exact ⟨h1.symm, ⟨hb, hc, hrp, hsz, hwp⟩, rfl, h2.symm⟩
  · rw [if_neg h0]
    refine ⟨?_, Inv_advance s ⟨hb, hc, hrp, hsz, hwp⟩ _ (by omega), rfl, ?_⟩
    · rw [copyOut_eq s ⟨hb, hc, hrp, hsz, hwp⟩ _ (by omega)]
      by_cases hn : n ≤ s.data_size
      · rw [Nat.min_eq_left hn]
      · rw [Nat.min_eq_right (by omega),
          List.take_of_length_le (by rw [hcl]),
          List.take_of_length_le (by rw [hcl]; omega)]
    · rw [contents_advance s ⟨hb, hc, hrp, hsz, hwp⟩ _ (by omega)]
      by_cases hn : n ≤ s.data_size
      · rw [Nat.min_eq_left hn]
      · rw [Nat.min_eq_right (by omega),
          List.drop_eq_nil_of_le (by rw [hcl]),
          List.drop_eq_nil_of_le (by rw [hcl]; omega)]

theorem skip_eq_read_snd (s : CircularBuffer) (h : s.Inv) (n : Nat) :
    s.skip n = (s.read n).2 := by
  obtain ⟨hb, hc, hrp, hsz, hwp⟩ := h
  unfold skip read
  dsimp only
  by_cases h0 : min n s.data_size = 0
  · rw [if_pos h0, h0]
    show ({ s with read_pos := (s.read_pos + 0) % s.capacity,
                   data_size := s.data_size - 0 } : CircularBuffer) = s
    rw [Nat.add_zero, Nat.mod_eq_of_lt hrp, Nat.sub_zero]
  · rw [if_neg h0]

theorem peek_eq_read_fst (s : CircularBuffer) (n : Nat) :
    s.peek n = (s.read n).1 := by
  unfold peek read
  dsimp only
  by_cases h0 : min n s.data_size = 0
  · rw [if_pos h0, if_pos h0]
  · rw [if_neg h0, if_neg h0]

theorem skip_spec (s : CircularBuffer) (h : s.Inv) (n : Nat) :
    (s.skip n).Inv ∧ (s.skip n).capacity = s.capacity ∧
    (s.skip n).contents = s.contents.drop n := by
  rw [skip_eq_read_snd s h n]
  obtain ⟨-, h2, h3, h4⟩ := read_spec s h n
  exact ⟨h2, h3, h4⟩

theorem clear_spec (s : CircularBuffer) (h : s.Inv) :
    (s.clear).Inv ∧ (s.clear).capacity = s.capacity ∧ (s.clear).contents = [] := by
  obtain ⟨hb, hc, hrp, hsz, hwp⟩ := h
  refine ⟨⟨hb, hc, hc, by show 0 ≤ s.capacity; omega, ?_⟩, rfl, ?_⟩
  · show (0 : Nat) = (0 + 0) % s.capacity
    rw [Nat.add_zero, Nat.zero_mod]
  · show (s.buffer.drop 0 ++ s.buffer.take 0).take 0 = []
    rw [List.take_zero]

theorem peek_spec (s : CircularBuffer) (h : s.Inv) (n : Nat) :
    s.peek n = s.contents.take n := by
  rw [peek_eq_read_fst s n]
  exact (read_spec s h n).1

end CircularBuffer
end VDL
namespace VDL
namespace CircularBuffer

theorem init_Inv (cap : Nat) (hc : 0 < cap) : (init cap).Inv := by
  refine ⟨by simp [init], hc, hc, by show (0 : Nat) ≤ cap; omega, ?_⟩
  show (0 : Nat) = (0 + 0) % cap
  rw [Nat.add_zero, Nat.zero_mod]

theorem init_contents (cap : Nat) : (init cap).contents = [] := by
  show ((init cap).buffer.drop 0 ++ (init cap).buffer.take 0).take 0 = []
  rw [List.take_zero]

theorem Inv_size_eq (s : CircularBuffer) (h : s.Inv) (hlt : s.data_size < s.capacity) :
    s.data_size = (s.write_pos + s.capacity - s.read_pos) % s.capacity := by
  obtain ⟨hb, hc, hrp, hsz, hwp⟩ := h
  by_cases hrs : s.read_pos + s.data_size < s.capacity
  · have hwpv : s.write_pos = s.read_pos + s.data_size := by
      rw [hwp]
      exact Nat.mod_eq_of_lt hrs
    have harg : s.write_pos + s.capacity - s.read_pos
        = s.data_size + s.capacity := by omega
    rw [harg, Nat.add_mod_right, Nat.mod_eq_of_lt hlt]
  · have hwpv : s.write_pos = s.read_pos + s.data_size - s.capacity := by
      rw [hwp, Nat.mod_eq_sub_mod (by omega)]
      exact Nat.mod_eq_of_lt (by omega)
    have harg : s.write_pos + s.capacity - s.read_pos = s.data_size := by omega
    rw [harg, Nat.mod_eq_of_lt hlt]

theorem applyOp_spec (cap : Nat) (s : CircularBuffer) (q : List Nat) (op : BufOp)
    (h : s.Inv) (hcap : s.capacity = cap) (hq : s.contents = q) :
    (s.applyOp op).1 = (specBufApply cap q op).1 ∧
    (s.applyOp op).2.Inv ∧ (s.applyOp op).2.capacity = cap ∧
    (s.applyOp op).2.contents = (specBufApply cap q op).2 := by
  cases op with
  | write d =>
      obtain ⟨h1, h2, h3, h4⟩ := write_spec s h d
      refine ⟨rfl, h2, by show (s.write d).2.capacity = cap; rw [h3, hcap], ?_⟩
      show (s.write d).2.contents = q ++ d.take (cap - q.length)
      have hql : q.length = s.data_size := by
        rw [← hq, contents_length s h]
      rw [h4, hq, hcap, hql]
  | read n =>
      obtain ⟨h1, h2, h3, h4⟩ := read_spec s h n
      exact ⟨by show (s.read n).1 = q.take n; rw [h1, hq],
        h2, by show (s.read n).2.capacity = cap; rw [h3, hcap],
        by show (s.read n).2.contents = q.drop n; rw [h4, hq]⟩
  | peek n =>
      exact ⟨by show s.peek n = q.take n; rw [peek_spec s h n, hq], h, hcap, hq⟩
  | skip n =>
      obtain ⟨h2, h3, h4⟩ := skip_spec s h n
      exact ⟨rfl, h2, by show (s.skip n).capacity = cap; rw [h3, hcap],
        by show (s.skip n).contents = q.drop n; rw [h4, hq]⟩
  | clear =>
      obtain ⟨h2, h3, h4⟩ := clear_spec s h
      exact ⟨rfl, h2, by show s.clear.capacity = cap; rw [h3, hcap],
        by show s.clear.contents = []; rw [h4]⟩

theorem run_spec (cap : Nat) (ops : List BufOp) :
    ∀ (s : CircularBuffer) (q : List Nat), s.Inv → s.capacity = cap →
      s.contents = q →
      (s.run ops).1 = (specBufRun cap q ops).1 ∧
      (s.run ops).2.Inv ∧ (s.run ops).2.capacity = cap ∧
      (s.run ops).2.contents = (specBufRun cap q ops).2 := by
  induction ops with
  | nil => exact fun s q hInv hcap hq => ⟨rfl, hInv, hcap, hq⟩
  | cons op ops ih =>
      intro s q hInv hcap hq
      obtain ⟨ho1, ho2, ho3, ho4⟩ := applyOp_spec cap s q op hInv hcap hq
      obtain ⟨hr1, hr2, hr3, hr4⟩ :=
        ih (s.applyOp op).2 (specBufApply cap q op).2 ho2 ho3 ho4
      exact ⟨by show (s.applyOp op).1 :: ((s.applyOp op).2.run ops).1 = _ :: _
                rw [ho1, hr1],
        hr2, hr3, hr4⟩

end CircularBuffer
end VDL
namespace VDL

/-- **C6**.  For any sequence of `CircularBuffer` operations starting from
a fresh buffer (in particular any write/read sequence that never exceeds
the capacity), the bytes every `read`/`peek` yields are exactly those of
the abstract FIFO queue — reads return bytes in write order, across the
wraparound boundary — and on the resulting state `peek n` followed by
`skip n` is observably identical to `read n`: the same bytes and the same
state. -/
theorem circular_buffer_fifo_peek_skip (cap : Nat) (hc : 0 < cap)
    (ops : List BufOp) (n : Nat) :
    ((CircularBuffer.init cap).run ops).1 = (specBufRun cap [] ops).1 ∧
    (((CircularBuffer.init cap).run ops).2.peek n,
      ((CircularBuffer.init cap).run ops).2.skip n)
      = ((CircularBuffer.init cap).run ops).2.read n := by
  obtain ⟨h1, h2, h3, h4⟩ := CircularBuffer.run_spec cap ops (CircularBuffer.init cap) []
    (CircularBuffer.init_Inv cap hc) rfl (CircularBuffer.init_contents cap)
  refine ⟨h1, ?_⟩
  have hp := CircularBuffer.peek_eq_read_fst ((CircularBuffer.init cap).run ops).2 n
  have hs := CircularBuffer.skip_eq_read_snd ((CircularBuffer.init cap).run ops).2 h2 n
  rw [hp, hs]

/-- Witness for `circular_buffer_fifo_peek_skip`: a capacity-4 buffer,
a write of 3 bytes and a read of 2, then `peek 2`/`skip 2` versus
`read 2`. -/
theorem circular_buffer_fifo_peek_skip_witness :
    (0 < 4 ∧ True) ∧
    (((CircularBuffer.init 4).run [.write [1, 2, 3], .read 2]).1
        = (specBufRun 4 [] [.write [1, 2, 3], .read 2]).1 ∧
      (((CircularBuffer.init 4).run [.write [1, 2, 3], .read 2]).2.peek 2,
        ((CircularBuffer.init 4).run [.write [1, 2, 3], .read 2]).2.skip 2)
        = ((CircularBuffer.init 4).run [.write [1, 2, 3], .read 2]).2.read 2) :=
  ⟨⟨by decide, trivial⟩,
   circular_buffer_fifo_peek_skip 4 (by decide) [.write [1, 2, 3], .read 2] 2⟩

/-- **C7** counterexample: writing one byte into a fresh capacity-1 buffer
fills it; then `size = 1` but `(write_pos − read_pos) mod capacity =
(0 + 1 − 0) mod 1 = 0` — the claimed equation fails on a full buffer. -/
theorem circular_buffer_size_mod_counterexample :
    (((CircularBuffer.init 1).run [.write [7]]).2.data_size = 1 ∧
      ((CircularBuffer.init 1).run [.write [7]]).2.write_pos = 0 ∧
      ((CircularBuffer.init 1).run [.write [7]]).2.read_pos = 0 ∧
      ((CircularBuffer.init 1).run [.write [7]]).2.capacity = 1) ∧
    ¬ ((CircularBuffer.init 1).run [.write [7]]).2.data_size
        = (((CircularBuffer.init 1).run [.write [7]]).2.write_pos
            + ((CircularBuffer.init 1).run [.write [7]]).2.capacity
            - ((CircularBuffer.init 1).run [.write [7]]).2.read_pos)
          % ((CircularBuffer.init 1).run [.write [7]]).2.capacity := by
  decide

/-- **C7** (amended: the size/cursor equation is the congruence
`write_pos = (read_pos + size) mod capacity`; the claimed
`size = (write_pos − read_pos) mod capacity` holds whenever the buffer is
not full, failing only at `size = capacity`).  After every operation
sequence on a fresh buffer, `0 ≤ size ≤ capacity` holds,
`write_pos = (read_pos + size) mod capacity`, and when `size < capacity`
also `size = (write_pos + capacity − read_pos) mod capacity`. -/
theorem circular_buffer_invariant (cap : Nat) (hc : 0 < cap) (ops : List BufOp) :
    ((CircularBuffer.init cap).run ops).2.data_size ≤ cap ∧
    ((CircularBuffer.init cap).run ops).2.write_pos
      = (((CircularBuffer.init cap).run ops).2.read_pos
          + ((CircularBuffer.init cap).run ops).2.data_size) % cap ∧
    (((CircularBuffer.init cap).run ops).2.data_size < cap →
      ((CircularBuffer.init cap).run ops).2.data_size
        = (((CircularBuffer.init cap).run ops).2.write_pos + cap
            - ((CircularBuffer.init cap).run ops).2.read_pos) % cap) := by
  obtain ⟨h1, h2, h3, h4⟩ := CircularBuffer.run_spec cap ops (CircularBuffer.init cap) []
    (CircularBuffer.init_Inv cap hc) rfl (CircularBuffer.init_contents cap)
  have hInvEnd := h2
  obtain ⟨hb, hcpos, hrp, hsz, hwp⟩ := h2
  rw [h3] at hsz hwp
  refine ⟨hsz, hwp, ?_⟩
  intro hlt
  have hx := CircularBuffer.Inv_size_eq ((CircularBuffer.init cap).run ops).2
    hInvEnd (by rw [h3]; exact hlt)
  rw [h3] at hx
  exact hx

/-- Witness for `circular_buffer_invariant`: capacity 3, a write of 2
bytes followed by a read of 1 (buffer not full, so the size equation is
exercised). -/
theorem circular_buffer_invariant_witness :
    0 < 3 ∧
    (((CircularBuffer.init 3).run [.write [5, 6], .read 1]).2.data_size ≤ 3 ∧
      ((CircularBuffer.init 3).run [.write [5, 6], .read 1]).2.write_pos
        = (((CircularBuffer.init 3).run [.write [5, 6], .read 1]).2.read_pos
            + ((CircularBuffer.init 3).run [.write [5, 6], .read 1]).2.data_size) % 3 ∧
      (((CircularBuffer.init 3).run [.write [5, 6], .read 1]).2.data_size < 3 →
        ((CircularBuffer.init 3).run [.write [5, 6], .read 1]).2.data_size
          = (((CircularBuffer.init 3).run [.write [5, 6], .read 1]).2.write_pos + 3
              - ((CircularBuffer.init 3).run [.write [5, 6], .read 1]).2.read_pos) % 3)) :=
  ⟨by decide, circular_buffer_invariant 3 (by decide) [.write [5, 6], .read 1]⟩

end VDL
namespace VDL

theorem heartbeatFailRun_three (n : Nat) : ∀ fc : Nat, fc < 3 →
    (heartbeatFailRun 3 true n fc).1
      = (List.range n).map
          (fun i => if (fc + i) % 3 = 2 then HeartbeatEvent.max_failures
            else HeartbeatEvent.failure) ∧
    (heartbeatFailRun 3 true n fc).2 = (fc + n) % 3 := by
  induction n with
  | zero =>
      intro fc hfc
      exact ⟨rfl, by show fc = (fc + 0) % 3; rw [Nat.add_zero, Nat.mod_eq_of_lt hfc]⟩
  | succ n ih =>
      intro fc hfc
      have hrw : (heartbeatFailRun 3 true (n + 1) fc).1
            = (heartbeatFailStep 3 true fc).2
              :: (heartbeatFailRun 3 true n (heartbeatFailStep 3 true fc).1).1 ∧
          (heartbeatFailRun 3 true (n + 1) fc).2
            = (heartbeatFailRun 3 true n (heartbeatFailStep 3 true fc).1).2 :=
        ⟨rfl, rfl⟩
      by_cases hfc2 : fc = 2
      · subst hfc2
        have hstep : heartbeatFailStep 3 true 2 = (0, HeartbeatEvent.max_failures) := by
          decide
        obtain ⟨ih1, ih2⟩ := ih 0 (by decide)
        refine ⟨?_, ?_⟩
        · rw [hrw.1, hstep]
          dsimp only
          rw [ih1, List.range_succ_eq_map, List.map_cons, List.map_map]
          refine congrArg₂ _ (by norm_num) ?_
          apply List.map_congr_left
          intro i _
          show (if (0 + i) % 3 = 2 then HeartbeatEvent.max_failures else .failure)
            = if (2 + (i + 1)) % 3 = 2 then HeartbeatEvent.max_failures else .failure
          exact if_congr (by omega) rfl rfl
        · rw [hrw.2, hstep]
          dsimp only
          rw [ih2]
          omega
      · have hstep : heartbeatFailStep 3 true fc = (fc + 1, HeartbeatEvent.failure) := by
          unfold heartbeatFailStep
          dsimp only
          rw [Nat.mod_eq_of_lt (by omega), if_neg (by omega)]
        obtain ⟨ih1, ih2⟩ := ih (fc + 1) (by omega)
        refine ⟨?_, ?_⟩
        · rw [hrw.1, hstep]
          dsimp only
          rw [ih1, List.range_succ_eq_map, List.map_cons, List.map_map]
          refine congrArg₂ _ ?_ ?_
          · show HeartbeatEvent.failure
              = if (fc + 0) % 3 = 2 then HeartbeatEvent.max_failures else .failure
            rw [if_neg (by omega)]
          · apply List.map_congr_left
            intro i _
            show (if (fc + 1 + i) % 3 = 2 then HeartbeatEvent.max_failures else .failure)
              = if (fc + (i + 1)) % 3 = 2 then HeartbeatEvent.max_failures else .failure
            exact if_congr (by omega) rfl rfl
        · rw [hrw.2, hstep]
          dsimp only
          rw [ih2]
          omega

end VDL
namespace VDL

theorem count_max_failures_range (n : Nat) :
    ((List.range n).map
      (fun i => if i % 3 = 2 then HeartbeatEvent.max_failures
        else HeartbeatEvent.failure)).count HeartbeatEvent.max_failures = n / 3 := by
  induction n with
  | zero => rfl
  | succ n ih =>
      rw [List.range_succ, List.map_append, List.count_append, ih]
      by_cases h : n % 3 = 2
      · rw [List.map_singleton, if_pos h]
        show n / 3 + 1 = (n + 1) / 3
        omega
      · rw [List.map_singleton, if_neg h]
        show n / 3 + List.count HeartbeatEvent.max_failures [HeartbeatEvent.failure]
          = (n + 1) / 3
        rw [show List.count HeartbeatEvent.max_failures [HeartbeatEvent.failure] = 0
          from by decide]
        omega

/-- **C9**.  With `max_failures = 3` and `auto_reset_failures = true`, and
a strategy whose validation always fails (every `_run_loop` cycle takes the
failure branch), `n` consecutive cycles from a zero failure counter emit
`max_failures` exactly at cycles 3, 6, 9, … — once per 3 consecutive
failure cycles, `n / 3` times in total — with `failure` at every other
cycle, and the counter is reset to 0 each time the event fires, ending at
`n % 3`. -/
theorem heartbeat_max_failures_every_third_cycle (n : Nat) :
    (heartbeatFailRun 3 true n 0).1
      = (List.range n).map
          (fun i => if i % 3 = 2 then HeartbeatEvent.max_failures
            else HeartbeatEvent.failure) ∧
    (heartbeatFailRun 3 true n 0).2 = n % 3 ∧
    (heartbeatFailRun 3 true n 0).1.count HeartbeatEvent.max_failures = n / 3 := by
  obtain ⟨h1, h2⟩ := heartbeatFailRun_three n 0 (by decide)
  have hmap : (List.range n).map
        (fun i => if (0 + i) % 3 = 2 then HeartbeatEvent.max_failures
          else HeartbeatEvent.failure)
      = (List.range n).map
        (fun i => if i % 3 = 2 then HeartbeatEvent.max_failures
          else HeartbeatEvent.failure) := by
    apply List.map_congr_left
    intro i _
    exact if_congr (by omega) rfl rfl
  rw [h1, hmap] at *
  refine ⟨rfl, by rw [h2]; omega, count_max_failures_range n⟩

/-- **C5**.  The device state type has exactly the five values
`disconnected`, `connecting`, `connected`, `reconnecting`, `error` (all
distinct); a newly constructed device is `disconnected`; and `disconnect()`
moves the device to `disconnected` from every state. -/
theorem device_state_values_and_disconnect (t : MockTransport) (maxFrame : Nat)
    (cfg : DeviceConfig) :
    (∀ st : DeviceState, st = .disconnected ∨ st = .connecting ∨ st = .connected
        ∨ st = .reconnecting ∨ st = .error) ∧
    ([DeviceState.disconnected, .connecting, .connected, .reconnecting,
        .error].Nodup) ∧
    (Device.mkDevice t maxFrame cfg).state = .disconnected ∧
    (∀ d : Device, d.disconnect.state = .disconnected) := by
  refine ⟨fun st => ?_, by decide, rfl, fun d => rfl⟩
  cases st
  · exact .inl rfl
  · exact .inr (.inl rfl)
  · exact .inr (.inr (.inl rfl))
  · exact .inr (.inr (.inr (.inl rfl)))
  · exact .inr (.inr (.inr (.inr rfl)))

/-- **C2**.  For every protocol-class error code — `protocol_error`,
`invalid_frame`, `checksum_error`, `encode_failed`, `decode_failed`, plus
`invalid_argument` and `device_error` — `_is_recoverable_error` returns
false under any configuration, and `_handle_error` disconnects the device
(state `disconnected`, one transport close) without ever calling transport
`open`. -/
theorem protocol_errors_never_reopen (cfg : DeviceConfig) (d : Device)
    (e : ErrorCode)
    (he : e ∈ [ErrorCode.protocol_error, .invalid_frame, .checksum_error,
      .encode_failed, .decode_failed, .invalid_argument, .device_error]) :
    Device.isRecoverableError cfg e = false ∧
    (Device.handleError d e).1.state = .disconnected ∧
    (Device.handleError d e).2 = [Ev.closeT] ∧
    Ev.openT ∉ (Device.handleError d e).2 := by
  have hrec : Device.isRecoverableError d.cfg e = false := by
    fin_cases he <;> rfl
  have hrec' : Device.isRecoverableError cfg e = false := by
    fin_cases he <;> rfl
  have hH : Device.handleError d e = (d.disconnect, [Ev.closeT]) := by
    unfold Device.handleError
    rw [hrec]
    by_cases ha : d.cfg.auto_reconnect
    · rw [if_neg (by simpa using ha), if_pos (by simp)]
    · rw [if_pos (by simpa using ha)]
  rw [hH]
  exact ⟨hrec', rfl, rfl, by simp⟩

/-- Witness for `protocol_errors_never_reopen` at `checksum_error` on a
concrete connected device. -/
theorem protocol_errors_never_reopen_witness :
    (ErrorCode.checksum_error ∈ [ErrorCode.protocol_error, .invalid_frame,
        .checksum_error, .encode_failed, .decode_failed, .invalid_argument,
        .device_error]) ∧
    (Device.isRecoverableError {} ErrorCode.checksum_error = false ∧
      (Device.handleError
        { transport := { is_open := true } } ErrorCode.checksum_error).1.state
          = .disconnected ∧
      (Device.handleError
        { transport := { is_open := true } } ErrorCode.checksum_error).2
          = [Ev.closeT] ∧
      Ev.openT ∉ (Device.handleError
        { transport := { is_open := true } } ErrorCode.checksum_error).2) :=
  ⟨by decide,
   protocol_errors_never_reopen {} { transport := { is_open := true } }
     ErrorCode.checksum_error (by decide)⟩

end VDL
namespace VDL
namespace MockTransport

theorem open_fail (t : MockTransport) (hf : t.should_fail_open = true)
    (hfo : t.fail_open_times = 0) :
    t.open = (.error .connection_failed,
      { t with open_count := t.open_count + 1 }) := by
  unfold MockTransport.open
  dsimp only
  rw [if_neg (by show ¬ t.fail_open_times > 0; omega), if_pos (by show t.should_fail_open = true; exact hf)]

end MockTransport

theorem specReconnectEpisode_concat (cfg : DeviceConfig) (maxA : Nat) :
    ∀ (r : Nat) (isOpen : Bool) (delay : Nat),
      ∃ l, specReconnectEpisode cfg maxA isOpen r delay
        = l ++ [Ev.cb .failed maxA maxA] := by
  intro r
  induction r with
  | zero => exact fun isOpen delay => ⟨[], rfl⟩
  | succ r ih =>
      intro isOpen delay
      by_cases hr : r = 0
      · subst hr
        refine ⟨[Ev.cb .attempting (maxA - 0) maxA]
          ++ (if isOpen then [Ev.closeT] else []) ++ [Ev.openT], ?_⟩
        show [Ev.cb .attempting (maxA - 0) maxA]
            ++ (if isOpen then [Ev.closeT] else []) ++ [Ev.openT]
            ++ (if 0 = 0 then [Ev.cb .failed maxA maxA] else _) = _
        simp
      · obtain ⟨l, hl⟩ := ih false (min (cfg.backoffMul delay) cfg.max_reconnect_delay)
        refine ⟨[Ev.cb .attempting (maxA - r) maxA]
          ++ (if isOpen then [Ev.closeT] else []) ++ [Ev.openT]
          ++ (if delay > 0 then [Ev.sleep delay] else []) ++ l, ?_⟩
        show [Ev.cb .attempting (maxA - r) maxA]
            ++ (if isOpen then [Ev.closeT] else []) ++ [Ev.openT]
            ++ (if r = 0 then [Ev.cb .failed maxA maxA]
              else (if delay > 0 then [Ev.sleep delay] else [])
                ++ specReconnectEpisode cfg maxA false r
                    (min (cfg.backoffMul delay) cfg.max_reconnect_delay)) = _
        rw [if_neg hr, hl]
        simp

theorem reconnectGo_fail (cfg : DeviceConfig) (maxA : Nat) :
    ∀ (r : Nat), 1 ≤ r → ∀ (delay : Nat) (t : MockTransport),
      t.should_fail_open = true → t.fail_open_times = 0 →
      (Device.reconnectGo cfg maxA r delay t).1 = .error ∧
      (Device.reconnectGo cfg maxA r delay t).2.2
        = specReconnectEpisode cfg maxA t.is_open r delay ∧
      (Device.reconnectGo cfg maxA r delay t).2.1.should_fail_open = true ∧
      (Device.reconnectGo cfg maxA r delay t).2.1.fail_open_times = 0 ∧
      (Device.reconnectGo cfg maxA r delay t).2.1.is_open = false ∧
      (Device.reconnectGo cfg maxA r delay t).2.1.open_count
        = t.open_count + r := by
  intro r
  induction r with
  | zero => omega
  | succ r ih =>
      intro _ delay t hf hfo
      have ht1f : (if t.is_open then t.close else t).should_fail_open = true := by
        split <;> exact hf
      have ht1o : (if t.is_open then t.close else t).fail_open_times = 0 := by
        split <;> exact hfo
      have ht1open : (if t.is_open then t.close else t).is_open = false := by
        split
        · rfl
        · rename_i hb
          simpa using hb
      have ht1c : (if t.is_open then t.close else t).open_count = t.open_count := by
        split <;> rfl
      have hopen := MockTransport.open_fail (if t.is_open then t.close else t) ht1f ht1o
      by_cases hr : r = 0
      · subst hr
        have hval : Device.reconnectGo cfg maxA (0 + 1) delay t
            = (.error,
               { (if t.is_open then t.close else t) with
                   open_count := (if t.is_open then t.close else t).open_count + 1 },
               [Ev.cb .attempting (maxA - 0) maxA]
                 ++ (if t.is_open then [Ev.closeT] else [])
                 ++ [Ev.openT, Ev.cb .failed maxA maxA]) := by
          simp only [Device.reconnectGo]
          rw [hopen]
          dsimp only
          rw [if_pos trivial]
        rw [hval]
        refine ⟨rfl, ?_, ht1f, ht1o, ht1open, by dsimp only; omega⟩
        show _ = specReconnectEpisode cfg maxA t.is_open (0 + 1) delay
        simp [specReconnectEpisode]
      · have hval : Device.reconnectGo cfg maxA (r + 1) delay t
            = ((Device.reconnectGo cfg maxA r
                  (min (cfg.backoffMul delay) cfg.max_reconnect_delay)
                  { (if t.is_open then t.close else t) with
                      open_count := (if t.is_open then t.close else t).open_count + 1 }).1,
               (Device.reconnectGo cfg maxA r
                  (min (cfg.backoffMul delay) cfg.max_reconnect_delay)
                  { (if t.is_open then t.close else t) with
                      open_count := (if t.is_open then t.close else t).open_count + 1 }).2.1,
               [Ev.cb .attempting (maxA - r) maxA]
                 ++ (if t.is_open then [Ev.closeT] else []) ++ [Ev.openT]
                 ++ (if delay > 0 then [Ev.sleep delay] else [])
                 ++ (Device.reconnectGo cfg maxA r
                      (min (cfg.backoffMul delay) cfg.max_reconnect_delay)
                      { (if t.is_open then t.close else t) with
                          open_count := (if t.is_open then t.close else t).open_count + 1 }).2.2) := by
          simp only [Device.reconnectGo]
          rw [hopen]
          dsimp only
          simp only [if_neg hr]
        obtain ⟨ih1, ih2, ih3, ih4, ih5, ih6⟩ := ih (by omega)
          (min (cfg.backoffMul delay) cfg.max_reconnect_delay)
          { (if t.is_open then t.close else t) with
              open_count := (if t.is_open then t.close else t).open_count + 1 }
          ht1f ht1o
        rw [hval]
        refine ⟨ih1, ?_, ih3, ih4, ih5, by rw [ih6]; dsimp only; rw [ht1c]; omega⟩
        show _ = specReconnectEpisode cfg maxA t.is_open (r + 1) delay
        simp only [specReconnectEpisode]
        rw [if_neg hr, ih2]
        have : ({ (if t.is_open then t.close else t) with
            open_count := (if t.is_open then t.close else t).open_count + 1 }
              : MockTransport).is_open = false := ht1open
        rw [this]
        simp

end VDL
namespace VDL

/-- **C4**.  Within one reconnect episode on a transport whose reopen
always fails, the episode's trace equals the spec trace
`specReconnectEpisode`: the local delay starts at `reconnect_delay` at the
beginning of the episode; after each failed attempt with attempts
remaining the device sleeps the current delay (skipping a zero delay) and
then continues with `min(backoff(current_delay), max_reconnect_delay)`;
exhausting all attempts leaves the device in the `error` state with the
`failed` event last.  The trace is a function of the configuration and the
initial open flag alone, so the delay sequence is not persisted across
episodes: any other device with the same configuration starts again at
`reconnect_delay`. -/
theorem reconnect_backoff_episode (d : Device)
    (hf : d.transport.should_fail_open = true)
    (hfo : d.transport.fail_open_times = 0) :
    (Device.tryReconnect d).2
      = Ev.cb .started 0 (max 1 d.cfg.max_retries)
          :: specReconnectEpisode d.cfg (max 1 d.cfg.max_retries)
               d.transport.is_open (max 1 d.cfg.max_retries)
               d.cfg.reconnect_delay ∧
    (Device.tryReconnect d).1.state = .error ∧
    (Device.tryReconnect d).2.getLast?
      = some (.cb .failed (max 1 d.cfg.max_retries) (max 1 d.cfg.max_retries)) ∧
    (∀ d' : Device, d'.cfg = d.cfg → d'.transport.should_fail_open = true →
      d'.transport.fail_open_times = 0 →
      d'.transport.is_open = d.transport.is_open →
      (Device.tryReconnect d').2 = (Device.tryReconnect d).2) := by
  obtain ⟨h1, h2, h3, h4, h5, h6⟩ :=
    reconnectGo_fail d.cfg (max 1 d.cfg.max_retries) (max 1 d.cfg.max_retries)
      (by omega) d.cfg.reconnect_delay d.transport hf hfo
  have htrace : (Device.tryReconnect d).2
      = Ev.cb .started 0 (max 1 d.cfg.max_retries)
          :: specReconnectEpisode d.cfg (max 1 d.cfg.max_retries)
               d.transport.is_open (max 1 d.cfg.max_retries)
               d.cfg.reconnect_delay := by
    show Ev.cb .started 0 (max 1 d.cfg.max_retries)
        :: (Device.reconnectGo d.cfg (max 1 d.cfg.max_retries)
             (max 1 d.cfg.max_retries) d.cfg.reconnect_delay d.transport).2.2
      = _
    rw [h2]
  refine ⟨htrace, h1, ?_, ?_⟩
  · rw [htrace]
    obtain ⟨l, hl⟩ := specReconnectEpisode_concat d.cfg (max 1 d.cfg.max_retries)
      (max 1 d.cfg.max_retries) d.transport.is_open d.cfg.reconnect_delay
    rw [hl, ← List.cons_append, List.getLast?_concat]
  · intro d' hcfg hf' hfo' hio'
    obtain ⟨-, h2', -, -, -, -⟩ :=
      reconnectGo_fail d'.cfg (max 1 d'.cfg.max_retries) (max 1 d'.cfg.max_retries)
        (by omega) d'.cfg.reconnect_delay d'.transport hf' hfo'
    have htrace' : (Device.tryReconnect d').2
        = Ev.cb .started 0 (max 1 d'.cfg.max_retries)
            :: specReconnectEpisode d'.cfg (max 1 d'.cfg.max_retries)
                 d'.transport.is_open (max 1 d'.cfg.max_retries)
                 d'.cfg.reconnect_delay := by
      show Ev.cb .started 0 (max 1 d'.cfg.max_retries)
          :: (Device.reconnectGo d'.cfg (max 1 d'.cfg.max_retries)
               (max 1 d'.cfg.max_retries) d'.cfg.reconnect_delay d'.transport).2.2
        = _
      rw [h2']
    rw [htrace, htrace', hcfg, hio']

/-- Witness for `reconnect_backoff_episode`: `max_retries = 3`, delays
10 → min(20, 25) = 20 (a third delay is never slept: attempts are then
exhausted), on an initially open transport that always fails reopen. -/
theorem reconnect_backoff_episode_witness :
    (failingOpenDevice.transport.should_fail_open = true ∧
      failingOpenDevice.transport.fail_open_times = 0) ∧
    ((Device.tryReconnect failingOpenDevice).2
      = Ev.cb .started 0 (max 1 failingOpenDevice.cfg.max_retries)
          :: specReconnectEpisode failingOpenDevice.cfg
               (max 1 failingOpenDevice.cfg.max_retries)
               failingOpenDevice.transport.is_open
               (max 1 failingOpenDevice.cfg.max_retries)
               failingOpenDevice.cfg.reconnect_delay ∧
     (Device.tryReconnect failingOpenDevice).1.state = .error ∧
     (Device.tryReconnect failingOpenDevice).2.getLast?
       = some (.cb .failed (max 1 failingOpenDevice.cfg.max_retries)
           (max 1 failingOpenDevice.cfg.max_retries)) ∧
     (∀ d' : Device, d'.cfg = failingOpenDevice.cfg →
        d'.transport.should_fail_open = true →
        d'.transport.fail_open_times = 0 →
        d'.transport.is_open = failingOpenDevice.transport.is_open →
        (Device.tryReconnect d').2
          = (Device.tryReconnect failingOpenDevice).2)) :=
  ⟨⟨rfl, rfl⟩, reconnect_backoff_episode failingOpenDevice rfl rfl⟩

end VDL
namespace VDL
namespace MockTransport

theorem write_ok (t : MockTransport) (ho : t.is_open = true)
    (hft : t.fail_write_times = 0) (hsf : t.should_fail_write = false)
    (data : List Nat) :
    t.write data = (.ok data.length,
      { t with write_buffer := t.write_buffer ++ data }) := by
  unfold write
  rw [if_neg (by rw [ho]; simp), if_neg (by omega), if_neg (by rw [hsf]; simp)]

theorem write_failTimes (t : MockTransport) (ho : t.is_open = true)
    (hft : 0 < t.fail_write_times) (data : List Nat) :
    t.write data = (.error .write_failed,
      { t with fail_write_times := t.fail_write_times - 1 }) := by
  unfold write
  rw [if_neg (by rw [ho]; simp), if_pos (by omega)]

theorem write_shouldFail (t : MockTransport) (ho : t.is_open = true)
    (hft : t.fail_write_times = 0) (hsf : t.should_fail_write = true)
    (data : List Nat) :
    t.write data = (.error .write_failed, t) := by
  unfold write
  rw [if_neg (by rw [ho]; simp), if_neg (by omega), if_pos hsf]

theorem write_all_ok (t : MockTransport) (ho : t.is_open = true)
    (hft : t.fail_write_times = 0) (hsf : t.should_fail_write = false)
    (data : List Nat) (hne : data ≠ []) :
    t.write_all data = (.ok (),
      { t with write_buffer := t.write_buffer ++ data }) := by
  unfold write_all
  rw [if_neg (by simpa using hne), write_ok t ho hft hsf data]

theorem write_all_failTimes (t : MockTransport) (ho : t.is_open = true)
    (hft : 0 < t.fail_write_times) (data : List Nat) (hne : data ≠ []) :
    t.write_all data = (.error .write_failed,
      { t with fail_write_times := t.fail_write_times - 1 }) := by
  unfold write_all
  rw [if_neg (by simpa using hne), write_failTimes t ho hft data]

theorem write_all_shouldFail (t : MockTransport) (ho : t.is_open = true)
    (hft : t.fail_write_times = 0) (hsf : t.should_fail_write = true)
    (data : List Nat) (hne : data ≠ []) :
    t.write_all data = (.error .write_failed, t) := by
  unfold write_all
  rw [if_neg (by simpa using hne), write_shouldFail t ho hft hsf data]

theorem read_all (t : MockTransport) (ho : t.is_open = true)
    (hfr : t.fail_read_times = 0) (hsr : t.should_fail_read = false)
    (hne : t.read_buffer ≠ []) (hlen : t.read_buffer.length ≤ 1024) :
    t.read 1024 = (.ok t.read_buffer, { t with read_buffer := [] }) := by
  unfold read
  rw [if_neg (by rw [ho]; simp), if_neg (by omega), if_neg (by rw [hsr]; simp),
    if_neg (by simpa using hne)]
  have hmin : min 1024 t.read_buffer.length = t.read_buffer.length :=
    Nat.min_eq_right hlen
  rw [hmin]
  dsimp only
  rw [List.take_length, List.drop_length]

end MockTransport
end VDL
namespace VDL

theorem frame_length_encoded (fc : Nat) (data : List Nat) (c1 c2 : Nat)
    (h16 : data.length < 65536) :
    BinaryCodec.frame_length
      ((BinaryCodec.SOF :: data.length % 256 :: (data.length >>> 8) % 256
          :: fc :: data) ++ [c1, c2])
      = data.length + 6 := by
  set l := data.length with hl
  set buf := (BinaryCodec.SOF :: l % 256 :: (l >>> 8) % 256 :: fc :: data)
    ++ [c1, c2] with hbuf
  have hlen : buf.length = l + 6 := by simp [hbuf]
  have h0 : buf.getD 0 0 = BinaryCodec.SOF := by simp [hbuf]
  have h1 : buf.getD 1 0 = l % 256 := by simp [hbuf]
  have h2 : buf.getD 2 0 = (l >>> 8) % 256 := by simp [hbuf]
  have hdiv : l / 256 < 256 := Nat.div_lt_of_lt_mul (by omega)
  have hdl : buf.getD 1 0 ||| buf.getD 2 0 <<< 8 = l := by
    rw [h1, h2, lor_shift8 _ _ (Nat.mod_lt _ (by norm_num)),
      Nat.shiftRight_eq_div_pow]
    have h256 : l / 2 ^ 8 % 256 = l / 256 := by
      norm_num [Nat.mod_eq_of_lt hdiv]
    rw [h256]
    have := Nat.mod_add_div l 256
    omega
  unfold BinaryCodec.frame_length
  rw [if_neg (by omega), if_neg (by rw [h0]; simp), hdl]
  show 4 + l + 2 = l + 6
  omega

theorem readResponse_frame (maxFrame : Nat) (t : MockTransport) (F : List Nat)
    (ho : t.is_open = true) (hfr : t.fail_read_times = 0)
    (hsr : t.should_fail_read = false) (hbuf : t.read_buffer = F)
    (hne : F ≠ []) (hlen : F.length ≤ 1024) (hmax : F.length ≤ maxFrame)
    (hfl : BinaryCodec.frame_length F = F.length) :
    Device.readResponse maxFrame t
      = ((BinaryCodec.decode maxFrame F).1,
         { t with read_buffer := [] }, [Ev.readCall]) := by
  have hread : t.read 1024 = (.ok F, { t with read_buffer := [] }) := by
    rw [← hbuf]
    exact MockTransport.read_all t ho hfr hsr (by rw [hbuf]; exact hne)
      (by rw [hbuf]; exact hlen)
  have hpos : 0 < F.length := List.length_pos.mpr hne
  unfold Device.readResponse
  rw [hbuf]
  rw [show F.length + 1 = F.length + 1 from rfl]
  have hstep1 : Device.readResponseGo maxFrame (F.length + 1) [] t
      = (let rest := Device.readResponseGo maxFrame F.length F
          { t with read_buffer := [] }
         (rest.1, rest.2.1, Ev.readCall :: rest.2.2)) := by
    simp only [Device.readResponseGo]
    rw [if_neg (by simp [BinaryCodec.frame_length]), hread]
    dsimp only
    rw [if_neg (by omega), if_neg (by simp; omega)]
    simp
  rw [hstep1]
  have hFsucc : F.length = (F.length - 1) + 1 := by omega
  have hstep2 : Device.readResponseGo maxFrame F.length F
      { t with read_buffer := [] }
      = ((BinaryCodec.decode maxFrame (F.take (BinaryCodec.frame_length F))).1,
         { t with read_buffer := [] }, []) := by
    rw [hFsucc]
    simp only [Device.readResponseGo]
    rw [if_pos ⟨hpos, by rw [hfl]; omega, by rw [hfl]⟩]
  rw [hstep2]
  dsimp only
  rw [hfl, List.take_length]

end VDL
namespace VDL

theorem executeLoop_peel (maxFrame : Nat) (cfg : DeviceConfig) (frame : List Nat)
    (hne : frame ≠ []) :
    ∀ (k m : Nat), 1 ≤ m → ∀ (t : MockTransport) (e : ErrorCode),
      t.is_open = true → t.fail_write_times = k → t.should_fail_write = false →
      ∃ e', Device.executeLoop maxFrame cfg frame (k + m) e t
        = ((Device.executeLoop maxFrame cfg frame m e'
              { t with fail_write_times := 0 }).1,
           (Device.executeLoop maxFrame cfg frame m e'
              { t with fail_write_times := 0 }).2.1,
           (List.replicate k ([Ev.writeAttempt]
              ++ (if cfg.retry_delay > 0 then [Ev.sleep cfg.retry_delay]
                  else []))).flatten
             ++ (Device.executeLoop maxFrame cfg frame m e'
                  { t with fail_write_times := 0 }).2.2) := by
  intro k
  induction k with
  | zero =>
      intro m hm t e ho hft hsf
      refine ⟨e, ?_⟩
      have ht0 : ({ t with fail_write_times := 0 } : MockTransport) = t := by
        cases t
        simp_all
      rw [ht0]
      simp
  | succ k ih =>
      intro m hm t e ho hft hsf
      have hwa := MockTransport.write_all_failTimes t ho (by omega) frame hne
      have hstep : Device.executeLoop maxFrame cfg frame ((k + 1) + m) e t
          = ((Device.executeLoop maxFrame cfg frame (k + m) .write_failed
                { t with fail_write_times := t.fail_write_times - 1 }).1,
             (Device.executeLoop maxFrame cfg frame (k + m) .write_failed
                { t with fail_write_times := t.fail_write_times - 1 }).2.1,
             Ev.writeAttempt
               :: ((if cfg.retry_delay > 0 then [Ev.sleep cfg.retry_delay]
                    else [])
                 ++ (Device.executeLoop maxFrame cfg frame (k + m) .write_failed
                      { t with fail_write_times := t.fail_write_times - 1 }).2.2)) := by
        rw [show (k + 1) + m = (k + m) + 1 by omega]
        simp only [Device.executeLoop]
        rw [hwa]
        dsimp only
        rw [if_neg (by omega)]
      obtain ⟨e', he'⟩ := ih m hm { t with fail_write_times := t.fail_write_times - 1 }
        .write_failed ho (by dsimp only; omega) hsf
      refine ⟨e', ?_⟩
      rw [hstep, he']
      refine congrArg₂ _ rfl (congrArg₂ _ rfl ?_)
      rw [List.replicate_succ, List.flatten_cons]
      simp

end VDL
namespace VDL

theorem executeLoop_success_now (maxFrame : Nat) (cfg : DeviceConfig)
    (frame : List Nat) (hne : frame ≠ []) (m : Nat) (hm : 1 ≤ m)
    (t : MockTransport) (e : ErrorCode) (ho : t.is_open = true)
    (hft : t.fail_write_times = 0) (hsf : t.should_fail_write = false)
    (resp : Response) (t2 : MockTransport) (revs : List Ev)
    (hread : Device.readResponse maxFrame
        { t with write_buffer := t.write_buffer ++ frame }
      = (.ok resp, t2, revs)) :
    Device.executeLoop maxFrame cfg frame m e t
      = (.ok resp, t2, Ev.writeAttempt :: revs) := by
  obtain ⟨n, rfl⟩ : ∃ n, m = n + 1 := ⟨m - 1, by omega⟩
  have hwa := MockTransport.write_all_ok t ho hft hsf frame hne
  simp only [Device.executeLoop]
  rw [hwa]
  dsimp only
  rw [hread]

theorem executeLoop_allFail (maxFrame : Nat) (cfg : DeviceConfig)
    (frame : List Nat) (hne : frame ≠ []) :
    ∀ (n : Nat) (t : MockTransport) (e : ErrorCode), t.is_open = true →
      t.fail_write_times = 0 → t.should_fail_write = true →
      (Device.executeLoop maxFrame cfg frame n e t).1
          = .error (if n = 0 then e else .write_failed) ∧
      (Device.executeLoop maxFrame cfg frame n e t).2.1 = t ∧
      (Device.executeLoop maxFrame cfg frame n e t).2.2.count Ev.writeAttempt
          = n := by
  intro n
  induction n with
  | zero => exact fun t e ho hft hsf => ⟨rfl, rfl, rfl⟩
  | succ n ih =>
      intro t e ho hft hsf
      have hwa := MockTransport.write_all_shouldFail t ho hft hsf frame hne
      obtain ⟨ih1, ih2, ih3⟩ := ih t .write_failed ho hft hsf
      have hstep : Device.executeLoop maxFrame cfg frame (n + 1) e t
          = ((Device.executeLoop maxFrame cfg frame n .write_failed t).1,
             (Device.executeLoop maxFrame cfg frame n .write_failed t).2.1,
             Ev.writeAttempt
               :: ((if n = 0 then []
                    else if cfg.retry_delay > 0 then [Ev.sleep cfg.retry_delay]
                      else [])
                 ++ (Device.executeLoop maxFrame cfg frame n
                      .write_failed t).2.2)) := by
        simp only [Device.executeLoop]
        rw [hwa]
      rw [hstep]
      refine ⟨?_, ih2, ?_⟩
      · dsimp only
        rw [ih1]
        by_cases hn : n = 0
        · rw [if_pos hn, if_neg (by omega)]
        · rw [if_neg hn, if_neg (by omega)]
      · dsimp only
        rw [List.count_cons, List.count_append, ih3]
        have hsleep : (if n = 0 then ([] : List Ev)
            else if cfg.retry_delay > 0 then [Ev.sleep cfg.retry_delay]
              else []).count Ev.writeAttempt = 0 := by
          split
          · rfl
          · split
            · rfl
            · rfl
        rw [hsleep]
        simp

theorem count_writeAttempt_flatten_replicate (k : Nat) (rd : Nat) :
    ((List.replicate k ([Ev.writeAttempt]
      ++ (if rd > 0 then [Ev.sleep rd] else []))).flatten).count Ev.writeAttempt
      = k := by
  induction k with
  | zero => rfl
  | succ k ih =>
      rw [List.replicate_succ, List.flatten_cons, List.count_append, ih]
      have : ([Ev.writeAttempt]
          ++ (if rd > 0 then [Ev.sleep rd] else [])).count Ev.writeAttempt = 1 := by
        split <;> rfl
      rw [this]
      omega

theorem reconnectGo_count_writeAttempt (cfg : DeviceConfig) (maxA : Nat) :
    ∀ (r delay : Nat) (t : MockTransport),
      (Device.reconnectGo cfg maxA r delay t).2.2.count Ev.writeAttempt = 0 := by
  intro r
  induction r with
  | zero => intro delay t; rfl
  | succ r ih =>
      intro delay t
      simp only [Device.reconnectGo]
      rcases hop : (if t.is_open = true then t.close else t).open with ⟨res, t2⟩
      cases res with
      | ok u =>
          dsimp only
          simp only [List.count_append]
          have h1 : ([Ev.cb .attempting (maxA - r) maxA] : List Ev).count
              Ev.writeAttempt = 0 := by rfl
          have h2 : ((if t.is_open = true then [Ev.closeT] else [])
              : List Ev).count Ev.writeAttempt = 0 := by split <;> rfl
          have h3 : ([Ev.openT, Ev.cb .success (maxA - r) maxA]
              : List Ev).count Ev.writeAttempt = 0 := by rfl
          omega
      | error e =>
          dsimp only
          by_cases hr : r = 0
          · rw [if_pos hr]
            simp only [List.count_append]
            have h1 : ([Ev.cb .attempting (maxA - r) maxA] : List Ev).count
                Ev.writeAttempt = 0 := by rfl
            have h2 : ((if t.is_open = true then [Ev.closeT] else [])
                : List Ev).count Ev.writeAttempt = 0 := by split <;> rfl
            have h3 : ([Ev.openT, Ev.cb .failed maxA maxA]
                : List Ev).count Ev.writeAttempt = 0 := by rfl
            omega
          · rw [if_neg hr]
            dsimp only
            simp only [List.count_append]
            have h1 : ([Ev.cb .attempting (maxA - r) maxA] : List Ev).count
                Ev.writeAttempt = 0 := by rfl
            have h2 : ((if t.is_open = true then [Ev.closeT] else [])
                : List Ev).count Ev.writeAttempt = 0 := by split <;> rfl
            have h3 : ([Ev.openT] : List Ev).count Ev.writeAttempt = 0 := by rfl
            have h4 : ((if delay > 0 then [Ev.sleep delay] else [])
                : List Ev).count Ev.writeAttempt = 0 := by split <;> rfl
            have h5 := ih (min (cfg.backoffMul delay) cfg.max_reconnect_delay) t2
            omega

end VDL
namespace VDL

/-- **C3**.  With `max_retries ≥ 1`, a transport that fails `write` exactly
`max_retries − 1` times and then succeeds, and a complete response frame
(the encoding of `respCmd`) preloaded in the transport's read buffer,
`execute()` returns the decoded response successfully — function code and
payload of `respCmd` — performs exactly `max_retries` write attempts, and
leaves the device connected. -/
theorem execute_retry_success (cfg : DeviceConfig) (hr : 1 ≤ cfg.max_retries)
    (maxFrame : Nat) (cmd respCmd : Command)
    (hcmd : cmd.data.length + 6 ≤ maxFrame)
    (hrfit : respCmd.data.length + 6 ≤ maxFrame)
    (hr16 : respCmd.data.length < 65536)
    (hr1024 : respCmd.data.length + 6 ≤ 1024)
    (F : List Nat) (hF : BinaryCodec.encode maxFrame respCmd = .ok F)
    (t : MockTransport) (ho : t.is_open = true)
    (hfw : t.fail_write_times = cfg.max_retries - 1)
    (hsw : t.should_fail_write = false)
    (hfr : t.fail_read_times = 0) (hsr : t.should_fail_read = false)
    (hbuf : t.read_buffer = F) :
    (Device.execute (connDevice t maxFrame cfg) cmd).1
      = .ok { status := .success, function_code := respCmd.function_code,
              data := respCmd.data, raw_frame := F } ∧
    (Device.execute (connDevice t maxFrame cfg) cmd).2.2.count Ev.writeAttempt
      = cfg.max_retries ∧
    (Device.execute (connDevice t maxFrame cfg) cmd).2.1.state = .connected := by
  obtain ⟨F2, henc2, hlenF, hdecF⟩ :=
    BinaryCodec.roundtrip_core maxFrame respCmd hrfit hr16
  rw [hF] at henc2
  injection henc2 with hFF
  subst hFF
  have hFne : F ≠ [] := by
    intro hnil
    rw [hnil] at hlenF
    simp at hlenF
  have hCeq := BinaryCodec.encode_eq maxFrame cmd (by omega)
  have hfl : BinaryCodec.frame_length F = F.length := by
    have hFeq := BinaryCodec.encode_eq maxFrame respCmd hrfit
    rw [hF] at hFeq
    injection hFeq with hFeq2
    rw [hFeq2, frame_length_encoded _ _ _ _ hr16, ← hFeq2, hlenF]
  obtain ⟨C, hCok, hCne⟩ : ∃ C, BinaryCodec.encode maxFrame cmd = .ok C ∧ C ≠ [] :=
    ⟨_, hCeq, by simp⟩
  have hconn : (connDevice t maxFrame cfg).is_connected = true := by
    simp [connDevice, Device.is_connected, ho]
  have hdec1 : (BinaryCodec.decode maxFrame F).1
      = .ok { status := .success, function_code := respCmd.function_code,
              data := respCmd.data, raw_frame := F } := by
    rw [hdecF]
  obtain ⟨e2, hpeel⟩ := executeLoop_peel maxFrame cfg C hCne (cfg.max_retries - 1) 1
    (by omega) t .ok ho hfw hsw
  have hread := readResponse_frame maxFrame
    { t with fail_write_times := 0, write_buffer := t.write_buffer ++ C }
    F ho hfr hsr hbuf hFne (by omega) (by omega) hfl
  rw [hdec1] at hread
  have hsucc := executeLoop_success_now maxFrame cfg C hCne 1 (by omega)
    { t with fail_write_times := 0 } e2 ho rfl hsw
    { status := .success, function_code := respCmd.function_code,
      data := respCmd.data, raw_frame := F }
    { t with fail_write_times := 0, write_buffer := t.write_buffer ++ C,
             read_buffer := [] }
    [Ev.readCall] hread
  have hmr : max 1 cfg.max_retries = (cfg.max_retries - 1) + 1 := by omega
  have hloop : Device.executeLoop maxFrame cfg C (max 1 cfg.max_retries) .ok t
      = (.ok { status := .success, function_code := respCmd.function_code,
               data := respCmd.data, raw_frame := F },
         { t with fail_write_times := 0, write_buffer := t.write_buffer ++ C,
                  read_buffer := [] },
         (List.replicate (cfg.max_retries - 1) ([Ev.writeAttempt]
            ++ (if cfg.retry_delay > 0 then [Ev.sleep cfg.retry_delay] else []))).flatten
           ++ [Ev.writeAttempt, Ev.readCall]) := by
    rw [hmr, hpeel, hsucc]
  have hexec : Device.execute (connDevice t maxFrame cfg) cmd
      = (.ok { status := .success, function_code := respCmd.function_code,
               data := respCmd.data, raw_frame := F },
         { connDevice t maxFrame cfg with
             transport := { t with fail_write_times := 0,
                                   write_buffer := t.write_buffer ++ C,
                                   read_buffer := [] } },
         (List.replicate (cfg.max_retries - 1) ([Ev.writeAttempt]
            ++ (if cfg.retry_delay > 0 then [Ev.sleep cfg.retry_delay] else []))).flatten
           ++ [Ev.writeAttempt, Ev.readCall]) := by
    simp only [Device.execute]
    rw [if_neg (by rw [hconn]; simp)]
    simp only [connDevice]
    rw [hCok]
    dsimp only
    rw [hloop]
  rw [hexec]
  refine ⟨rfl, ?_, rfl⟩
  dsimp only
  rw [List.count_append, count_writeAttempt_flatten_replicate]
  have h2 : ([Ev.writeAttempt, Ev.readCall] : List Ev).count Ev.writeAttempt = 1 := by
    rfl
  rw [h2]
  omega

end VDL
namespace VDL

set_option maxRecDepth 4000 in
/-- Witness for `execute_retry_success`: `max_retries = 3`, two transient
write failures, the encoding of `respCmdW` preloaded. -/
theorem execute_retry_success_witness :
    (1 ≤ retryCfgW.max_retries ∧
      (Command.mk 1 []).data.length + 6 ≤ 65536 ∧
      respCmdW.data.length + 6 ≤ 65536 ∧
      respCmdW.data.length < 65536 ∧
      respCmdW.data.length + 6 ≤ 1024 ∧
      BinaryCodec.encode 65536 respCmdW = .ok frameW ∧
      retryTransportW.is_open = true ∧
      retryTransportW.fail_write_times = retryCfgW.max_retries - 1 ∧
      retryTransportW.should_fail_write = false ∧
      retryTransportW.fail_read_times = 0 ∧
      retryTransportW.should_fail_read = false ∧
      retryTransportW.read_buffer = frameW) ∧
    ((Device.execute (connDevice retryTransportW 65536 retryCfgW)
        (Command.mk 1 [])).1
      = .ok { status := .success, function_code := respCmdW.function_code,
              data := respCmdW.data, raw_frame := frameW } ∧
     (Device.execute (connDevice retryTransportW 65536 retryCfgW)
        (Command.mk 1 [])).2.2.count Ev.writeAttempt = retryCfgW.max_retries ∧
     (Device.execute (connDevice retryTransportW 65536 retryCfgW)
        (Command.mk 1 [])).2.1.state = .connected) :=
  ⟨⟨by decide, by decide, by decide, by decide, by decide, by rfl, rfl, rfl,
    rfl, rfl, rfl, rfl⟩,
   execute_retry_success retryCfgW (by decide) 65536 (Command.mk 1 []) respCmdW
     (by decide) (by decide) (by decide) (by decide) frameW (by rfl)
     retryTransportW rfl rfl rfl rfl rfl rfl⟩

theorem specReconnectEpisode_count_openT (cfg : DeviceConfig) (maxA : Nat) :
    ∀ (r : Nat) (isOpen : Bool) (delay : Nat),
      (specReconnectEpisode cfg maxA isOpen r delay).count Ev.openT = r := by
  intro r
  induction r with
  | zero => intro isOpen delay; rfl
  | succ r ih =>
      intro isOpen delay
      show ([Ev.cb .attempting (maxA - r) maxA]
          ++ (if isOpen then [Ev.closeT] else []) ++ [Ev.openT]
          ++ (if r = 0 then [Ev.cb .failed maxA maxA]
              else (if delay > 0 then [Ev.sleep delay] else [])
                ++ specReconnectEpisode cfg maxA false r
                    (min (cfg.backoffMul delay) cfg.max_reconnect_delay))).count
          Ev.openT = r + 1
      simp only [List.count_append]
      have h1 : ([Ev.cb .attempting (maxA - r) maxA] : List Ev).count Ev.openT
          = 0 := by rfl
      have h2 : ((if isOpen then [Ev.closeT] else []) : List Ev).count Ev.openT
          = 0 := by split <;> rfl
      have h3 : ([Ev.openT] : List Ev).count Ev.openT = 1 := by rfl
      have h4 : ((if r = 0 then [Ev.cb .failed maxA maxA]
          else (if delay > 0 then [Ev.sleep delay] else [])
            ++ specReconnectEpisode cfg maxA false r
                (min (cfg.backoffMul delay) cfg.max_reconnect_delay))
          : List Ev).count Ev.openT = r := by
        by_cases hr : r = 0
        · rw [if_pos hr, hr]
          rfl
        · rw [if_neg hr, List.count_append, ih]
          have h5 : ((if delay > 0 then [Ev.sleep delay] else [])
              : List Ev).count Ev.openT = 0 := by split <;> rfl
          rw [h5]
          omega
      omega

theorem handleError_count_writeAttempt (d : Device) (e : ErrorCode) :
    (Device.handleError d e).2.count Ev.writeAttempt = 0 := by
  unfold Device.handleError
  split
  · rfl
  · split
    · rfl
    · unfold Device.tryReconnect
      dsimp only
      rw [List.count_cons, reconnectGo_count_writeAttempt]
      simp

end VDL
namespace VDL

/-- **C10**.  Both `execute()` and the reconnect loop clamp their attempt
count to `max(1, max_retries)`: on a connected device whose transport
always fails `write`, `execute` performs exactly `max(1, max_retries)`
write attempts (so with `max_retries = 0` still exactly one), and on a
device whose transport always fails reopen, one reconnect episode performs
exactly `max(1, max_retries)` transport `open` calls. -/
theorem attempt_count_clamped (d1 : Device) (cmd : Command)
    (hconn : d1.state = .connected) (ho : d1.transport.is_open = true)
    (hfw : d1.transport.fail_write_times = 0)
    (hsw : d1.transport.should_fail_write = true)
    (hcmd : cmd.data.length + 6 ≤ d1.codecMaxFrame)
    (d2 : Device) (hf2 : d2.transport.should_fail_open = true)
    (hfo2 : d2.transport.fail_open_times = 0) :
    (Device.execute d1 cmd).2.2.count Ev.writeAttempt
      = max 1 d1.cfg.max_retries ∧
    (Device.tryReconnect d2).2.count Ev.openT = max 1 d2.cfg.max_retries := by
  constructor
  · obtain ⟨C, hCok, hCne⟩ :
        ∃ C, BinaryCodec.encode d1.codecMaxFrame cmd = .ok C ∧ C ≠ [] :=
      ⟨_, BinaryCodec.encode_eq d1.codecMaxFrame cmd hcmd, by simp⟩
    obtain ⟨ha1, ha2, ha3⟩ := executeLoop_allFail d1.codecMaxFrame d1.cfg C hCne
      (max 1 d1.cfg.max_retries) d1.transport .ok ho hfw hsw
    have htup : Device.executeLoop d1.codecMaxFrame d1.cfg C
        (max 1 d1.cfg.max_retries) .ok d1.transport
        = (.error .write_failed, d1.transport,
           (Device.executeLoop d1.codecMaxFrame d1.cfg C
             (max 1 d1.cfg.max_retries) .ok d1.transport).2.2) := by
      refine Prod.ext ?_ (Prod.ext ha2 rfl)
      rw [ha1, if_neg (by omega)]
    have hconn' : d1.is_connected = true := by
      simp [Device.is_connected, hconn, ho]
    have hexec : Device.execute d1 cmd
        = (.error .write_failed,
           (Device.handleError { d1 with transport := d1.transport }
             .write_failed).1,
           (Device.executeLoop d1.codecMaxFrame d1.cfg C
              (max 1 d1.cfg.max_retries) .ok d1.transport).2.2
             ++ (Device.handleError { d1 with transport := d1.transport }
                  .write_failed).2) := by
      simp only [Device.execute]
      rw [if_neg (by rw [hconn']; simp), hCok]
      dsimp only
      rw [htup]
    rw [hexec]
    dsimp only
    rw [List.count_append, ha3, handleError_count_writeAttempt]
    omega
  · obtain ⟨-, h2, -, -, -, -⟩ :=
      reconnectGo_fail d2.cfg (max 1 d2.cfg.max_retries) (max 1 d2.cfg.max_retries)
        (by omega) d2.cfg.reconnect_delay d2.transport hf2 hfo2
    show (Ev.cb .started 0 (max 1 d2.cfg.max_retries)
        :: (Device.reconnectGo d2.cfg (max 1 d2.cfg.max_retries)
             (max 1 d2.cfg.max_retries) d2.cfg.reconnect_delay
             d2.transport).2.2).count Ev.openT = max 1 d2.cfg.max_retries
    rw [List.count_cons, h2, specReconnectEpisode_count_openT]
    simp

/-- Witness for `attempt_count_clamped` at `max_retries = 0`: `execute`
performs one write attempt and the reconnect loop one open call. -/
theorem attempt_count_clamped_witness :
    ((connDevice { is_open := true, should_fail_write := true } 65536
        { max_retries := 0 }).state = .connected ∧
      (connDevice { is_open := true, should_fail_write := true } 65536
        { max_retries := 0 }).transport.is_open = true ∧
      (connDevice { is_open := true, should_fail_write := true } 65536
        { max_retries := 0 }).transport.fail_write_times = 0 ∧
      (connDevice { is_open := true, should_fail_write := true } 65536
        { max_retries := 0 }).transport.should_fail_write = true ∧
      (Command.mk 1 []).data.length + 6
        ≤ (connDevice { is_open := true, should_fail_write := true } 65536
            { max_retries := 0 }).codecMaxFrame ∧
      failingOpenDevice.transport.should_fail_open = true ∧
      failingOpenDevice.transport.fail_open_times = 0) ∧
    ((Device.execute (connDevice { is_open := true, should_fail_write := true }
        65536 { max_retries := 0 }) (Command.mk 1 [])).2.2.count Ev.writeAttempt
      = max 1 (connDevice { is_open := true, should_fail_write := true } 65536
          { max_retries := 0 }).cfg.max_retries ∧
     (Device.tryReconnect failingOpenDevice).2.count Ev.openT
      = max 1 failingOpenDevice.cfg.max_retries) :=
  ⟨⟨rfl, rfl, rfl, rfl, by decide, rfl, rfl⟩,
   attempt_count_clamped
     (connDevice { is_open := true, should_fail_write := true } 65536
       { max_retries := 0 }) (Command.mk 1 []) rfl rfl rfl rfl (by decide)
     failingOpenDevice rfl rfl⟩

end VDL
